import Mathlib

/-!
# Radio and audio modules of the micro:bit MicroPython simulator port

Shallow embedding of `source/microbit/modradio.cpp` (namespace `Radio`) and of
the frame arithmetic of `source/microbit/modaudio.cpp` (namespace `Audio`).

`modradio.cpp` talks to a simulator (`simulator_radio_config`,
`simulator_radio_send`, `simulator_radio_receive`); the register-level code of
the original driver (the `NRF_RADIO` code) is kept in the source inside comment
blocks and is not compiled.  The definitions embed the compiled code and keep
the source names.  The one definition that embeds a commented block,
`radio_send_reg`, carries the suffix `_reg`, says so in its doc comment and
serves only as the comparison for the compiled `radio_send`.
-/

namespace Radio

/-! ## Machine integers -/

/-- Conversion of an `mp_int_t` to `uint8_t`. -/
def u8 (v : Int) : Nat := (v % 256).toNat

/-- Conversion of an `mp_int_t` to `uint32_t`. -/
def u32 (v : Int) : Nat := (v % 4294967296).toNat

/-! ## Constants -/

def RADIO_DEFAULT_MAX_PAYLOAD : Nat := 32
def RADIO_DEFAULT_QUEUE_LEN : Nat := 3
def RADIO_DEFAULT_CHANNEL : Nat := 7
def RADIO_DEFAULT_POWER_DBM : Int := 0
def RADIO_DEFAULT_BASE0 : Nat := 0x75626974
def RADIO_DEFAULT_PREFIX0 : Nat := 0

/-- The three `RADIO_MODE_MODE_Nrf_*` constants.  They come from the nRF51
device header, which is not part of the source tree at hand, so the embedding
takes their values as a parameter. -/
structure RadioMode where
  Nrf_1Mbit : Nat
  Nrf_2Mbit : Nat
  Nrf_250Kbit : Nat
deriving DecidableEq, Repr

/-- The rate constants are representable in the `uint8_t` field `data_rate`. -/
def RadioMode.fits (rm : RadioMode) : Prop :=
  rm.Nrf_1Mbit < 256 ∧ rm.Nrf_2Mbit < 256 ∧ rm.Nrf_250Kbit < 256

instance (rm : RadioMode) : Decidable rm.fits := by
  unfold RadioMode.fits; infer_instance

/-- The values the nRF51 header gives to the rate constants. -/
def nrf51 : RadioMode := { Nrf_1Mbit := 0, Nrf_2Mbit := 1, Nrf_250Kbit := 2 }

def RADIO_DEFAULT_DATA_RATE (rm : RadioMode) : Nat := rm.Nrf_1Mbit

/-! ## Data model -/

/-- The struct `radio_state_t`. -/
structure radio_state_t where
  /-- `uint8_t`, 1-251 inclusive -/
  max_payload : Nat
  /-- `uint8_t`, 1-254 inclusive -/
  queue_len : Nat
  /-- `uint8_t`, 0-100 inclusive -/
  channel : Nat
  /-- `int8_t`, one of -30, -20, -16, -12, -8, -4, 0, 4 -/
  power_dbm : Int
  /-- `uint32_t`, for the BASE0 register -/
  base0 : Nat
  /-- `uint8_t`, for the PREFIX0 register -/
  prefix0 : Nat
  /-- `uint8_t`, one of the rate constants -/
  data_rate : Nat
deriving DecidableEq, Repr

/-- Keyword names (`qstr`) that `mod_radio_config` switches on; every other
name is `other`. -/
inductive qstr
  | length
  | queue
  | channel
  | power
  | data_rate
  | address
  | group
  | other (name : String)
deriving DecidableEq, Repr

/-- Exceptions raised by the module through `nlr_raise`. -/
inductive Exc
  /-- TypeError "arguments must be keyword arguments" -/
  | kwargs_only
  /-- ValueError "unknown argument '%q'" -/
  | unknown_argument (arg : qstr)
  /-- ValueError "value out of range for argument '%q'" -/
  | out_of_range (arg : qstr)
  /-- ValueError "radio is not enabled" -/
  | not_enabled
  /-- ValueError "received packet is not a string" -/
  | not_a_string
  /-- TypeError "can't convert to int", raised by the conversion of an option
  value that is not an integer -/
  | cant_convert_to_int
deriving DecidableEq, Repr

/-- Accesses outside a fixed-size automatic array; the C code has no defined
result there. -/
inductive UB
  /-- `memcpy` past the end of `send_buf[2048]` in `radio_send` -/
  | send_buf_overrun
  /-- read past the end of `buf[2048]` in `radio_receive` -/
  | recv_buf_overread
deriving DecidableEq, Repr

/-- How a call ends: normal return, `nlr_raise`, or undefined behaviour. -/
inductive Outcome (α : Type)
  | ret (v : α)
  | raise (e : Exc)
  | ub (u : UB)
deriving DecidableEq, Repr

/-- The Python objects the module returns. -/
inductive mp_obj
  | none
  | bytes (data : List Nat)
  | str (data : List Nat)
deriving DecidableEq, Repr

/-- A heap block handed out by `m_new`: its address and its bytes. -/
structure Block where
  addr : Nat
  bytes : List Nat
deriving DecidableEq, Repr

/-- Modelled from the spec: the `RadioHardware` double behind
`simulator_radio_config`, `simulator_radio_send` and
`simulator_radio_receive`, whose definitions are not in the source tree.
`configs` records every `configure(channel, address, group, dataRate)` call,
newest first; `air` is the looped-back packet: what transmit was given and
receive delivers next. -/
structure Sim where
  configs : List (Nat × Nat × Nat × Nat)
  air : Option (List Nat)
deriving DecidableEq, Repr

/-- The module's global state: `radio_state`, `MP_STATE_PORT(radio_buf)`
(`none` is `NULL`), the pointers `buf_end` and `rx_buf` as addresses, the next
address the allocator hands out, and the simulator. -/
structure State where
  radio_state : radio_state_t
  radio_buf : Option Block
  buf_end : Nat
  rx_buf : Nat
  heap_next : Nat
  sim : Sim
deriving DecidableEq, Repr

/-- State at process start: zeroed statics, no buffer. -/
def State.boot : State :=
  { radio_state := ⟨0, 0, 0, 0, 0, 0, 0⟩, radio_buf := none, buf_end := 0, rx_buf := 0,
    heap_next := 4096, sim := ⟨[], none⟩ }

/-! ## Simulator and allocator -/

/-- Modelled from the spec: `simulator_radio_config`, absent from the source
tree; records the configure call. -/
def simulator_radio_config (sim : Sim) (channel base0 prefix0 data_rate : Nat) : Sim :=
  { sim with configs := (channel, base0, prefix0, data_rate) :: sim.configs }

/-- Modelled from the spec: `simulator_radio_send`, absent from the source
tree; the loop-back double keeps the transmitted bytes for the next receive. -/
def simulator_radio_send (sim : Sim) (data : List Nat) : Sim :=
  { sim with air := some data }

/-- Modelled from the spec: `simulator_radio_receive`, absent from the source
tree; delivers the looped-back packet, if any, into a buffer of `cap` bytes and
forgets it. -/
def simulator_radio_receive (sim : Sim) (cap : Nat) : Option (List Nat) × Sim :=
  (sim.air.map (fun pkt => pkt.take cap), { sim with air := none })

/-- Modelled from the spec: `m_new(uint8_t, n)`, the MicroPython allocator,
absent from the source tree: a fresh zero-filled block of `n` bytes at the
next free address.  Allocation exhaustion is outside the model. -/
def m_new (s : State) (n : Nat) : Block × State :=
  (⟨s.heap_next, List.replicate n 0⟩, { s with heap_next := s.heap_next + n + 1 })

/-! ## Lifecycle -/

def radio_disable (s : State) : State :=
  match s.radio_buf with
  | some _ => { s with radio_buf := none }
  | none => s

def radio_enable (s : State) : State :=
  let s := radio_disable s
  let max_payload := s.radio_state.max_payload + 1
  let queue_len := s.radio_state.queue_len + 1
  let (blk, s) := m_new s (max_payload * queue_len)
  let sim := simulator_radio_config s.sim s.radio_state.channel s.radio_state.base0
    s.radio_state.prefix0 s.radio_state.data_rate
  { s with
    radio_buf := some blk
    buf_end := blk.addr + max_payload * queue_len
    rx_buf := blk.addr + max_payload
    sim := sim }

def mod_radio_reset (rm : RadioMode) (s : State) : Outcome mp_obj × State :=
  (.ret .none,
   { s with radio_state :=
      { max_payload := RADIO_DEFAULT_MAX_PAYLOAD
        queue_len := RADIO_DEFAULT_QUEUE_LEN
        channel := RADIO_DEFAULT_CHANNEL
        power_dbm := RADIO_DEFAULT_POWER_DBM
        base0 := RADIO_DEFAULT_BASE0
        prefix0 := RADIO_DEFAULT_PREFIX0
        data_rate := RADIO_DEFAULT_DATA_RATE rm % 256 } })

/-! ## Configuration -/

def power_dbm_table : List Int := [-30, -20, -16, -12, -8, -4, 0, 4]

/-- One iteration of the loop of `mod_radio_config` over a filled slot: the
`switch` on the key, applied to `new_state`.  `value` is the `mp_int_t` that
`mp_obj_get_int_truncated` produced. -/
def config_arg (rm : RadioMode) (new_state : radio_state_t) (arg_name : qstr) (value : Int) :
    Except Exc radio_state_t :=
  match arg_name with
  | .length =>
    if ¬(1 ≤ value ∧ value ≤ 251) then .error (.out_of_range arg_name)
    else .ok { new_state with max_payload := u8 value }
  | .queue =>
    if ¬(1 ≤ value ∧ value ≤ 254) then .error (.out_of_range arg_name)
    else .ok { new_state with queue_len := u8 value }
  | .channel =>
    if ¬(0 ≤ value ∧ value ≤ 100) then .error (.out_of_range arg_name)
    else .ok { new_state with channel := u8 value }
  | .power =>
    if ¬(0 ≤ value ∧ value ≤ 7) then .error (.out_of_range arg_name)
    else .ok { new_state with power_dbm := power_dbm_table.getD value.toNat 0 }
  | .data_rate =>
    if ¬(value = rm.Nrf_250Kbit ∨ value = rm.Nrf_1Mbit ∨ value = rm.Nrf_2Mbit) then
      .error (.out_of_range arg_name)
    else .ok { new_state with data_rate := u8 value }
  | .address => .ok { new_state with base0 := u32 value }
  | .group =>
    if ¬(0 ≤ value ∧ value ≤ 255) then .error (.out_of_range arg_name)
    else .ok { new_state with prefix0 := u8 value }
  | .other _ => .error (.unknown_argument arg_name)

/-- The loop of `mod_radio_config` over the filled slots of `kw_args`, in
table order, on the values that the conversion of line 333 has produced;
`config_loop_obj` below includes the conversion. -/
def config_loop (rm : RadioMode) (new_state : radio_state_t) :
    List (qstr × Int) → Except Exc radio_state_t
  | [] => .ok new_state
  | (arg_name, value) :: rest =>
    match config_arg rm new_state arg_name value with
    | .error e => .error e
    | .ok new_state => config_loop rm new_state rest

/-- The function `mod_radio_config`; `kw_args` lists the filled slots of the
keyword map in table order, each with the `mp_int_t` that line 333 has made of
its value.  `mod_radio_config_obj` below takes the values unconverted. -/
def mod_radio_config (rm : RadioMode) (s : State) (n_args : Nat) (kw_args : List (qstr × Int)) :
    Outcome mp_obj × State :=
  if n_args ≠ 0 then (.raise .kwargs_only, s)
  else
    match config_loop rm s.radio_state kw_args with
    | .error e => (.raise e, s)
    | .ok new_state =>
      match s.radio_buf with
      | none => (.ret .none, { s with radio_state := new_state })
      | some _ =>
        if new_state.max_payload ≠ s.radio_state.max_payload
            ∨ new_state.queue_len ≠ s.radio_state.queue_len then
          let s := radio_disable s
          let s := { s with radio_state := new_state }
          (.ret .none, radio_enable s)
        else
          let s := { s with radio_state := new_state }
          let sim := simulator_radio_config s.sim s.radio_state.channel s.radio_state.base0
            s.radio_state.prefix0 s.radio_state.data_rate
          (.ret .none, { s with sim := sim })

def mod_radio_on (s : State) : Outcome mp_obj × State :=
  (.ret .none, radio_enable s)

def mod_radio_off (s : State) : Outcome mp_obj × State :=
  (.ret .none, radio_disable s)

/-! ## Send and receive, compiled path -/

/-- The compiled body of `radio_send` (lines 183 and 242-246); `buf` and
`buf2` are the two parts with `len` and `len2` their lengths. -/
def radio_send (s : State) (buf buf2 : List Nat) : Outcome mp_obj × State :=
  match s.radio_buf with
  | none => (.raise .not_enabled, s)
  | some _ =>
    let send_len := (buf.length + buf2.length) % 4294967296
    if buf.length + buf2.length > 2048 then (.ub .send_buf_overrun, s)
    else (.ret .none, { s with sim := simulator_radio_send s.sim ((buf ++ buf2).take send_len) })

/-- The compiled body of `radio_receive` (lines 250 and 288-302).  `stack` is
what the automatic array `buf[2048]` holds on entry; the simulator overwrites
its first `len` bytes. -/
def radio_receive (s : State) (stack : Nat → Nat) (typed_packet : Bool) :
    Outcome mp_obj × State :=
  match s.radio_buf with
  | none => (.raise .not_enabled, s)
  | some _ =>
    match simulator_radio_receive s.sim 2048 with
    | (some pkt, sim) =>
      let s := { s with sim := sim }
      let len := pkt.length
      let buf := fun i => if i < len then pkt.getD i 0 else stack i
      if !typed_packet then (.ret (.bytes pkt), s)
      else if len ≥ 2 ∧ buf 0 = 1 ∧ buf 1 = 0 ∧ buf 2 = 1 then
        let n := (len + 4294967296 - 3) % 4294967296
        if 3 + n > 2048 then (.ub .recv_buf_overread, s)
        else (.ret (.str ((List.range n).map (fun i => buf (3 + i)))), s)
      else (.raise .not_a_string, s)
    | (none, sim) => (.ret .none, { s with sim := sim })

def mod_radio_send_bytes (s : State) (buf_in : List Nat) : Outcome mp_obj × State :=
  radio_send s buf_in []

def mod_radio_receive_bytes (s : State) (stack : Nat → Nat) : Outcome mp_obj × State :=
  radio_receive s stack false

def mod_radio_send (s : State) (buf_in : List Nat) : Outcome mp_obj × State :=
  radio_send s [1, 0, 1] buf_in

def mod_radio_receive (s : State) (stack : Nat → Nat) : Outcome mp_obj × State :=
  radio_receive s stack true

/-! ## Call sequences -/

/-- A call of one of the module's Python-visible functions. -/
inductive Call
  | reset
  | config (n_args : Nat) (kw_args : List (qstr × Int))
  | turn_on
  | turn_off
  | send_bytes (buf_in : List Nat)
  | send (buf_in : List Nat)
  | receive_bytes (stack : Nat → Nat)
  | receive (stack : Nat → Nat)

def Call.exec (rm : RadioMode) (s : State) : Call → Outcome mp_obj × State
  | .reset => mod_radio_reset rm s
  | .config n_args kw_args => mod_radio_config rm s n_args kw_args
  | .turn_on => mod_radio_on s
  | .turn_off => mod_radio_off s
  | .send_bytes b => mod_radio_send_bytes s b
  | .send b => mod_radio_send s b
  | .receive_bytes stack => mod_radio_receive_bytes s stack
  | .receive stack => mod_radio_receive s stack

/-- State after a sequence of calls, whatever each of them returned or
raised. -/
def run (rm : RadioMode) (s : State) : List Call → State
  | [] => s
  | c :: cs => run rm (c.exec rm s).2 cs

/-- The range constraints of `radio_state_t`. -/
def InRange (rm : RadioMode) (rs : radio_state_t) : Prop :=
  (1 ≤ rs.max_payload ∧ rs.max_payload ≤ 251)
  ∧ (1 ≤ rs.queue_len ∧ rs.queue_len ≤ 254)
  ∧ rs.channel ≤ 100
  ∧ rs.power_dbm ∈ power_dbm_table
  ∧ (rs.data_rate = rm.Nrf_250Kbit ∨ rs.data_rate = rm.Nrf_1Mbit ∨ rs.data_rate = rm.Nrf_2Mbit)

instance (rm : RadioMode) (rs : radio_state_t) : Decidable (InRange rm rs) := by
  unfold InRange; infer_instance

/-- Every field of `b` whose keyword is not in `keys` equals the same field
of `a`. -/
def Untouched (keys : List qstr) (a b : radio_state_t) : Prop :=
  (qstr.length ∉ keys → b.max_payload = a.max_payload)
  ∧ (qstr.queue ∉ keys → b.queue_len = a.queue_len)
  ∧ (qstr.channel ∉ keys → b.channel = a.channel)
  ∧ (qstr.power ∉ keys → b.power_dbm = a.power_dbm)
  ∧ (qstr.data_rate ∉ keys → b.data_rate = a.data_rate)
  ∧ (qstr.address ∉ keys → b.base0 = a.base0)
  ∧ (qstr.group ∉ keys → b.prefix0 = a.prefix0)

/-- A call succeeded: it returned `None`. -/
def Succeeds (r : Outcome mp_obj × State) : Prop := r.1 = .ret .none

instance (r : Outcome mp_obj × State) : Decidable (Succeeds r) := by
  unfold Succeeds; infer_instance

/-- The packet buffer, when there is one, spans
`(max_payload + 1) * (queue_len + 1)` bytes up to `buf_end`, for the committed
`radio_state`. -/
def GeometryOK (s : State) : Prop :=
  match s.radio_buf with
  | none => True
  | some blk =>
    s.buf_end - blk.addr = (s.radio_state.max_payload + 1) * (s.radio_state.queue_len + 1)

instance (s : State) : Decidable (GeometryOK s) := by
  unfold GeometryOK; cases s.radio_buf <;> infer_instance

/-! ## Keyword options -/

/-- Keyword names that have a case of their own in the `switch` of
`mod_radio_config`. -/
def qstr.isKnown : qstr → Bool
  | .other _ => false
  | _ => true

/-- The range each known keyword accepts, as the data model states it. -/
def ValidValue (rm : RadioMode) : qstr → Int → Prop
  | .length, v => 1 ≤ v ∧ v ≤ 251
  | .queue, v => 1 ≤ v ∧ v ≤ 254
  | .channel, v => 0 ≤ v ∧ v ≤ 100
  | .power, v => 0 ≤ v ∧ v ≤ 7
  | .data_rate, v => v = rm.Nrf_250Kbit ∨ v = rm.Nrf_1Mbit ∨ v = rm.Nrf_2Mbit
  | .address, _ => True
  | .group, v => 0 ≤ v ∧ v ≤ 255
  | .other _, _ => False

instance (rm : RadioMode) (k : qstr) (v : Int) : Decidable (ValidValue rm k v) := by
  cases k <;> unfold ValidValue <;> infer_instance

/-- What the `switch` case of a key writes into `new_state` once the value
has passed the range test of that case. -/
def written (rs : radio_state_t) (k : qstr) (v : Int) : radio_state_t :=
  match k with
  | .length => { rs with max_payload := u8 v }
  | .queue => { rs with queue_len := u8 v }
  | .channel => { rs with channel := u8 v }
  | .power => { rs with power_dbm := power_dbm_table.getD v.toNat 0 }
  | .data_rate => { rs with data_rate := u8 v }
  | .address => { rs with base0 := u32 v }
  | .group => { rs with prefix0 := u8 v }
  | .other _ => rs

/-! ## Conversion of the option values -/

/-- The Python object passed as the value of a keyword option, as far as the
conversion to an integer tells objects apart: an integer of any size (a `bool`
counts as the integer 0 or 1), or an object without an integer value (`None`,
a `str`, a `float`, ...). -/
inductive mp_const_obj
  | int (v : Int)
  | not_int
deriving DecidableEq, Repr

/-- Conversion of an integer to `mp_int_t`, the signed 32-bit machine word of
the port: the value modulo `2^32`, in `-2^31 .. 2^31 - 1`. -/
def mp_int_t (v : Int) : Int := (v + 2147483648) % 4294967296 - 2147483648

/-- Modelled from the spec: `mp_obj_get_int_truncated`, a function of the
MicroPython core that is not in the source tree at hand.  The spec leaves the
host language's objects out of its scope, so the definition follows the name
of the function and its use at line 333: an integer is cut to the machine word
without a range check, and an object that is not an integer raises
`TypeError`. -/
def mp_obj_get_int_truncated : mp_const_obj → Except Exc Int
  | .int v => .ok (mp_int_t v)
  | .not_int => .error .cant_convert_to_int

/-- The loop of `mod_radio_config` (lines 331-391) over the filled slots of
`kw_args` as the caller passed them, in table order: the value of a slot is
converted (line 333) before its key is read (line 334). -/
def config_loop_obj (rm : RadioMode) (new_state : radio_state_t) :
    List (qstr × mp_const_obj) → Except Exc radio_state_t
  | [] => .ok new_state
  | (arg_name, o) :: rest =>
    match mp_obj_get_int_truncated o with
    | .error e => .error e
    | .ok value =>
      match config_arg rm new_state arg_name value with
      | .error e => .error e
      | .ok new_state => config_loop_obj rm new_state rest

/-- The function `mod_radio_config` on the keyword map as the caller passed
it, values unconverted; `mod_radio_config` above is the same function on the
values that line 333 has produced. -/
def mod_radio_config_obj (rm : RadioMode) (s : State) (n_args : Nat)
    (kw_args : List (qstr × mp_const_obj)) : Outcome mp_obj × State :=
  if n_args ≠ 0 then (.raise .kwargs_only, s)
  else
    match config_loop_obj rm s.radio_state kw_args with
    | .error e => (.raise e, s)
    | .ok new_state =>
      match s.radio_buf with
      | none => (.ret .none, { s with radio_state := new_state })
      | some _ =>
        if new_state.max_payload ≠ s.radio_state.max_payload
            ∨ new_state.queue_len ≠ s.radio_state.queue_len then
          let s := radio_disable s
          let s := { s with radio_state := new_state }
          (.ret .none, radio_enable s)
        else
          let s := { s with radio_state := new_state }
          let sim := simulator_radio_config s.sim s.radio_state.channel s.radio_state.base0
            s.radio_state.prefix0 s.radio_state.data_rate
          (.ret .none, { s with sim := sim })

/-- An option value that converts to an integer in the range of its key. -/
def ValidOption (rm : RadioMode) (k : qstr) (o : mp_const_obj) : Prop :=
  match mp_obj_get_int_truncated o with
  | .ok v => ValidValue rm k v
  | .error _ => False

instance (rm : RadioMode) (k : qstr) (o : mp_const_obj) : Decidable (ValidOption rm k o) := by
  cases o <;> simp only [ValidOption, mp_obj_get_int_truncated] <;> infer_instance

/-- The first option of the list, in table order, whose key is not a known
one. -/
def firstUnknownOption : List (qstr × mp_const_obj) → Option (qstr × mp_const_obj)
  | [] => none
  | (k, o) :: rest => if k.isKnown then firstUnknownOption rest else some (k, o)

/-! ## Receive path as compiled -/

/-- The function `RADIO_IRQHandler` as compiled (lines 60-93): its body is a
single comment, so the handler returns at once and changes nothing. -/
def RADIO_IRQHandler (s : State) : State := s

/-- One packet delivery on the loop-back double: `radio_send` hands the
packet to the simulator, which holds it for the next
`simulator_radio_receive`; the radio interrupt follows. -/
def deliver (s : State) (payload : List Nat) : State :=
  RADIO_IRQHandler (radio_send s payload []).2

def deliverAll (s : State) : List (List Nat) → State
  | [] => s
  | p :: ps => deliverAll (deliver s p) ps

/-- Results of successive `radio_receive` calls, one for each element of
`residues`: what the automatic array `buf[2048]` holds on entry of that call. -/
def popN (typed_packet : Bool) : List (Nat → Nat) → State → List (Outcome mp_obj) × State
  | [], s => ([], s)
  | stack :: residues, s =>
    let r := radio_receive s stack typed_packet
    let rest := popN typed_packet residues r.2
    (r.1 :: rest.1, rest.2)

/-- Packets that go through the double one at a time: each is delivered and
popped, untyped, before the next one is delivered. -/
def deliverPopAll (stack : Nat → Nat) : List (List Nat) → State → List (Outcome mp_obj) × State
  | [], s => ([], s)
  | p :: ps, s =>
    let r := radio_receive (deliver s p) stack false
    let rest := deliverPopAll stack ps r.2
    (r.1 :: rest.1, rest.2)

/-- The test of line 294 on a received packet,
`len >= 2 && buf[0] == 1 && buf[1] == 0 && buf[2] == 1`: `buf` holds the bytes
of the packet over `stack`, what the array held before.  A packet that passes
is decoded as a string, any other raises the not-a-string error. -/
def decodes_as_string (stack : Nat → Nat) (pkt : List Nat) : Prop :=
  pkt.length ≥ 2 ∧ (if 0 < pkt.length then pkt.getD 0 0 else stack 0) = 1
    ∧ (if 1 < pkt.length then pkt.getD 1 0 else stack 1) = 0
    ∧ (if 2 < pkt.length then pkt.getD 2 0 else stack 2) = 1

instance (stack : Nat → Nat) (pkt : List Nat) : Decidable (decodes_as_string stack pkt) := by
  unfold decodes_as_string; infer_instance

/-- What can happen to an enabled radio between two lifecycle calls: a packet
is delivered, the radio interrupt fires, or the program calls
`radio_receive`. -/
inductive QEvent
  | packet (payload : List Nat)
  | irq
  | receive (stack : Nat → Nat) (typed_packet : Bool)

def QEvent.exec (s : State) : QEvent → State
  | .packet payload => deliver s payload
  | .irq => RADIO_IRQHandler s
  | .receive stack typed_packet => (radio_receive s stack typed_packet).2

def runQ (s : State) : List QEvent → State
  | [] => s
  | e :: es => runQ (e.exec s) es

/-! ## Register-level send -/

/-- The expression `NRF_RADIO->PCNF1 & 0xff`: the maximum payload length the
peripheral was programmed with. -/
def max_len (PCNF1 : Nat) : Nat := PCNF1 &&& 0xff

/-- Store of `data` at offset `off` of a byte array (`memcpy`, `memmove`, a
DMA write); what would land past the end of the array is dropped. -/
def store (bytes : List Nat) (off : Nat) (data : List Nat) : List Nat :=
  (bytes.take off ++ data ++ bytes.drop (off + data.length)).take bytes.length

/-- The register-level framing of `radio_send` (lines 185-200), which the
source keeps inside a comment: the two parts are truncated to the programmed
maximum and written, behind their length byte, into the transmit slot at the
start of `radio_buf`. -/
def radio_send_reg (PCNF1 : Nat) (s : State) (buf buf2 : List Nat) : Outcome mp_obj × State :=
  match s.radio_buf with
  | none => (.raise .not_enabled, s)
  | some blk =>
    let max_len := max_len PCNF1
    let len := buf.length
    let len2 := buf2.length
    let lens : Nat × Nat :=
      if len + len2 > max_len then
        if len > max_len then (max_len, 0) else (len, max_len - len)
      else (len, len2)
    let len := lens.1
    let len2 := lens.2
    let bytes := blk.bytes.set 0 ((len + len2) % 256)
    let bytes := store bytes 1 (buf.take len)
    let bytes := if len2 ≠ 0 then store bytes (1 + len) (buf2.take len2) else bytes
    (.ret .none, { s with radio_buf := some { blk with bytes := bytes } })

/-- Modelled from the spec: what the peripheral transmits when `PACKETPTR` is
`radio_buf` (line 211): the payload behind the length byte of the transmit
slot. -/
def radio_tx_payload (s : State) : Option (List Nat) :=
  s.radio_buf.map (fun blk => (blk.bytes.drop 1).take (blk.bytes.getD 0 0))

end Radio

/-! # Audio frames (`source/microbit/modaudio.cpp`) -/

namespace Audio

/-- Conversion of an `int` to `unsigned` (32 bits). -/
def toUnsigned (v : Int) : Nat := (v % 4294967296).toNat

/-- Conversion to `int32_t`: the value modulo 2^32 in the signed range. -/
def toInt32 (v : Int) : Int := (v + 2147483648) % 4294967296 - 2147483648

/-- The body of the loop of `add_into`: the value stored into `self->data[i]`,
given the samples `self->data[i]` and `other->data[i]`. -/
def add_into_sample (self_i other_i : Nat) (add : Bool) : Nat :=
  let mult : Int := if add then 1 else -1
  let val : Nat := toUnsigned ((self_i : Int) + mult * ((other_i : Int) - 128))
  let val : Nat :=
    if val > 255 then toUnsigned ((1 - ((val >>> 31 : Nat) : Int)) * 255) else val
  val % 256

/-- The function `add_into`; `AUDIO_CHUNK_SIZE` is a macro of `modaudio.h`,
which the source tree at hand does not contain, and is taken as a parameter.
The frames are the `data` arrays of `self` and `other`. -/
def add_into (AUDIO_CHUNK_SIZE : Nat) (self other : List Nat) (add : Bool) : List Nat :=
  (List.range AUDIO_CHUNK_SIZE).foldl
    (fun data i => data.set i (add_into_sample (data.getD i 0) (other.getD i 0) add)) self

/-- The `data` array `new_microbit_audio_frame` returns:
`memset(res->data, 128, AUDIO_CHUNK_SIZE)`. -/
def new_microbit_audio_frame (AUDIO_CHUNK_SIZE : Nat) : List Nat :=
  List.replicate AUDIO_CHUNK_SIZE 128

/-- Clamping as the claim words it: `clamp(v, lo, hi)`. -/
def clamp (v lo hi : Int) : Int := max lo (min v hi)

/-- The `sign` of `float_to_fixed`: `1-((x.bits>>30)&2)`.  `bits` is the 32-bit
pattern of `x.bits`; the mask keeps bit 1 of the shifted word, which the sign
extension of the arithmetic shift does not change. -/
def float_sign (bits : Nat) : Int := 1 - (((bits >>> 30) &&& 2 : Nat) : Int)

/-- The `exponent` of `float_to_fixed`: `((x.bits>>23)&255)-150`. -/
def float_exponent (bits : Nat) : Int := (((bits >>> 23) &&& 255 : Nat) : Int) - 150

/-- The `mantissa` of `float_to_fixed`: `(1<<23) | ((x.bits)&((1<<23)-1))`. -/
def float_mantissa (bits : Nat) : Nat := (1 <<< 23) ||| (bits &&& ((1 <<< 23) - 1))

/-- The `shift` of `float_to_fixed`: `scale+exponent`, a `uint32_t` plus an
`int32_t`, stored in an `int32_t`. -/
def float_shift (bits scale : Nat) : Int := toInt32 ((scale : Int) + float_exponent bits)

/-- The function `float_to_fixed`, on the 32-bit pattern `bits` of the float
argument (the union member `x.bits`).  A left shift that leaves the `int32_t`
range has no defined result in C; here it wraps. -/
def float_to_fixed (bits scale : Nat) : Int :=
  let sign := float_sign bits
  let mantissa := float_mantissa bits
  let shift := float_shift bits scale
  if shift > 0 then toInt32 (sign * toInt32 ((mantissa <<< shift.toNat : Nat) : Int))
  else if shift < -31 then 0
  else toInt32 (sign * ((mantissa >>> (-shift).toNat : Nat) : Int))

/-- IEEE-754 single precision: the biased exponent field of a bit pattern. -/
def ieee_exponent (bits : Nat) : Nat := bits / 2 ^ 23 % 2 ^ 8

/-- IEEE-754 single precision: the fraction field of a bit pattern. -/
def ieee_fraction (bits : Nat) : Nat := bits % 2 ^ 23

/-- IEEE-754 single precision: the sign of the encoded value, from the sign
bit. -/
def ieee_sign (bits : Nat) : Int := if bits / 2 ^ 31 % 2 = 1 then -1 else 1

/-- IEEE-754 single precision: the absolute value a finite bit pattern
encodes, as an exact rational: `fraction * 2^-149` for zero and denormals,
`(2^23 + fraction) * 2^(exponent - 150)` for normal numbers. -/
def ieee_abs (bits : Nat) : ℚ :=
  if ieee_exponent bits = 0 then (ieee_fraction bits : ℚ) * 2 ^ (-149 : Int)
  else ((2 ^ 23 + ieee_fraction bits : Nat) : ℚ) * 2 ^ ((ieee_exponent bits : Int) - 150)

end Audio

/-! # Theorems -/

namespace Radio



/-! ## Claim C1 -/

/-- C1: whenever `mod_radio_config` raises, the state after the call is the
state before it: `radio_state`, the packet buffer (`radio_buf`, `rx_buf`,
`buf_end`) and with it the enabled/disabled status are unchanged, and no
configure call reached the hardware. -/
theorem mod_radio_config_raise_unchanged (rm : RadioMode) (s : State) (n_args : Nat)
    (kw_args : List (qstr × Int)) (e : Exc)
    (h : (mod_radio_config rm s n_args kw_args).1 = .raise e) :
    (mod_radio_config rm s n_args kw_args).2 = s
      ∧ (mod_radio_config rm s n_args kw_args).2.radio_state = s.radio_state
      ∧ (mod_radio_config rm s n_args kw_args).2.radio_buf = s.radio_buf
      ∧ (mod_radio_config rm s n_args kw_args).2.rx_buf = s.rx_buf
      ∧ (mod_radio_config rm s n_args kw_args).2.buf_end = s.buf_end
      ∧ (mod_radio_config rm s n_args kw_args).2.sim.configs = s.sim.configs := by
  have key : (mod_radio_config rm s n_args kw_args).2 = s := by
    unfold mod_radio_config at h ⊢
    by_cases hn : n_args ≠ 0
    · simp [hn]
    · simp only [hn, if_false] at h ⊢
      cases hl : config_loop rm s.radio_state kw_args with
      | error e' => simp
      | ok ns =>
        rw [hl] at h
        cases hb : s.radio_buf with
        | none => simp [hb] at h
        | some blk =>
          simp only [hb] at h
          split at h <;> simp at h
  rw [key]
  simp

/-- C1 witness: `config(length=300)` on an enabled radio raises and changes
nothing. -/
theorem mod_radio_config_raise_unchanged_witness :
    (mod_radio_config nrf51 (radio_enable (mod_radio_reset nrf51 State.boot).2) 0
        [(qstr.length, 300)]).1 = .raise (.out_of_range .length)
    ∧ (mod_radio_config nrf51 (radio_enable (mod_radio_reset nrf51 State.boot).2) 0
        [(qstr.length, 300)]).2 = radio_enable (mod_radio_reset nrf51 State.boot).2 :=
  ⟨by decide, (mod_radio_config_raise_unchanged nrf51 _ 0 _ _
    (show (mod_radio_config nrf51 (radio_enable (mod_radio_reset nrf51 State.boot).2) 0
        [(qstr.length, 300)]).1 = .raise (.out_of_range .length) by decide)).1⟩

/-! ## Claim C2 -/

theorem u8_of_range (v : Int) (h0 : 0 ≤ v) (h1 : v < 256) : ((u8 v : Nat) : Int) = v := by
  unfold u8; omega

theorem power_dbm_table_mem (v : Int) (h0 : 0 ≤ v) (h1 : v ≤ 7) :
    power_dbm_table.getD v.toNat 0 ∈ power_dbm_table := by
  have h : v.toNat < 8 := by omega
  generalize v.toNat = n at h
  interval_cases n <;> decide

theorem config_arg_inRange (rm : RadioMode) (hfit : rm.fits) (rs rs' : radio_state_t)
    (k : qstr) (v : Int) (hrs : InRange rm rs) (h : config_arg rm rs k v = .ok rs') :
    InRange rm rs' := by
  obtain ⟨hmp, hql, hch, hpw, hdr⟩ := hrs
  obtain ⟨f1, f2, f3⟩ := hfit
  cases k <;> simp only [config_arg] at h
  · split at h
    · cases h
    · rename_i hv
      simp only [not_not] at hv
      injection h with h; subst h
      have := u8_of_range v (by omega) (by omega)
      exact ⟨by constructor <;> (simp only; omega), hql, hch, hpw, hdr⟩
  · split at h
    · cases h
    · rename_i hv
      simp only [not_not] at hv
      injection h with h; subst h
      have := u8_of_range v (by omega) (by omega)
      exact ⟨hmp, by constructor <;> (simp only; omega), hch, hpw, hdr⟩
  · split at h
    · cases h
    · rename_i hv
      simp only [not_not] at hv
      injection h with h; subst h
      have := u8_of_range v (by omega) (by omega)
      exact ⟨hmp, hql, by simp only; omega, hpw, hdr⟩
  · split at h
    · cases h
    · rename_i hv
      simp only [not_not] at hv
      injection h with h; subst h
      exact ⟨hmp, hql, hch, power_dbm_table_mem v hv.1 hv.2, hdr⟩
  · split at h
    · cases h
    · rename_i hv
      simp only [not_not] at hv
      injection h with h; subst h
      refine ⟨hmp, hql, hch, hpw, ?_⟩
      have := u8_of_range v (by omega) (by omega)
      simp only
      omega
  · injection h with h; subst h
    exact ⟨hmp, hql, hch, hpw, hdr⟩
  · split at h
    · cases h
    · injection h with h; subst h
      exact ⟨hmp, hql, hch, hpw, hdr⟩
  · cases h

theorem config_loop_inRange (rm : RadioMode) (hfit : rm.fits) (kw_args : List (qstr × Int)) :
    ∀ (rs rs' : radio_state_t), InRange rm rs → config_loop rm rs kw_args = .ok rs' →
      InRange rm rs' := by
  induction kw_args with
  | nil =>
    intro rs rs' hrs h
    simp only [config_loop] at h
    injection h with h; subst h; exact hrs
  | cons kv rest ih =>
    intro rs rs' hrs h
    obtain ⟨k, v⟩ := kv
    simp only [config_loop] at h
    cases hc : config_arg rm rs k v with
    | error e => rw [hc] at h; cases h
    | ok rs1 =>
      rw [hc] at h
      exact ih rs1 rs' (config_arg_inRange rm hfit rs rs1 k v hrs hc) h

theorem radio_disable_radio_state (s : State) : (radio_disable s).radio_state = s.radio_state := by
  unfold radio_disable; cases s.radio_buf <;> rfl

theorem radio_enable_radio_state (s : State) : (radio_enable s).radio_state = s.radio_state := by
  simp [radio_enable, m_new, radio_disable_radio_state]

theorem mod_radio_config_radio_state (rm : RadioMode) (s : State) (n_args : Nat)
    (kw_args : List (qstr × Int)) :
    (mod_radio_config rm s n_args kw_args).2.radio_state = s.radio_state
    ∨ config_loop rm s.radio_state kw_args
        = .ok (mod_radio_config rm s n_args kw_args).2.radio_state := by
  unfold mod_radio_config
  by_cases hn : n_args ≠ 0
  · simp [hn]
  · simp only [hn, if_false]
    cases hl : config_loop rm s.radio_state kw_args with
    | error e => simp
    | ok ns =>
      right
      cases hb : s.radio_buf with
      | none => simp
      | some blk =>
        simp only
        split
        · simp [radio_enable_radio_state]
        · simp

theorem radio_send_frame (s : State) (buf buf2 : List Nat) :
    ∃ sim', (radio_send s buf buf2).2 = { s with sim := sim' } := by
  obtain ⟨rs, rb, be, rx, hn, sim⟩ := s
  unfold radio_send
  cases rb with
  | none => exact ⟨sim, rfl⟩
  | some blk =>
    simp only
    split
    · exact ⟨sim, rfl⟩
    · exact ⟨_, rfl⟩

theorem radio_receive_frame (s : State) (stack : Nat → Nat) (typed_packet : Bool) :
    ∃ sim', (radio_receive s stack typed_packet).2 = { s with sim := sim' } := by
  obtain ⟨rs, rb, be, rx, hn, ⟨cfgs, air⟩⟩ := s
  unfold radio_receive
  cases rb with
  | none => exact ⟨_, rfl⟩
  | some blk =>
    simp only [simulator_radio_receive]
    cases air with
    | none => exact ⟨_, rfl⟩
    | some pkt =>
      simp only [Option.map_some']
      split_ifs <;> exact ⟨_, rfl⟩

theorem radio_send_radio_state (s : State) (buf buf2 : List Nat) :
    (radio_send s buf buf2).2.radio_state = s.radio_state := by
  obtain ⟨sim', h⟩ := radio_send_frame s buf buf2
  rw [h]

theorem radio_receive_radio_state (s : State) (stack : Nat → Nat) (typed_packet : Bool) :
    (radio_receive s stack typed_packet).2.radio_state = s.radio_state := by
  obtain ⟨sim', h⟩ := radio_receive_frame s stack typed_packet
  rw [h]

theorem reset_inRange (rm : RadioMode) (hfit : rm.fits) (s : State) :
    InRange rm (mod_radio_reset rm s).2.radio_state := by
  obtain ⟨f1, f2, f3⟩ := hfit
  simp only [mod_radio_reset, RADIO_DEFAULT_DATA_RATE, InRange, RADIO_DEFAULT_MAX_PAYLOAD,
    RADIO_DEFAULT_QUEUE_LEN, RADIO_DEFAULT_CHANNEL, RADIO_DEFAULT_POWER_DBM, power_dbm_table]
  refine ⟨by omega, by omega, by omega, by simp, ?_⟩
  right; left
  exact Nat.mod_eq_of_lt f1

theorem exec_inRange (rm : RadioMode) (hfit : rm.fits) (s : State) (c : Call)
    (hs : InRange rm s.radio_state) : InRange rm (c.exec rm s).2.radio_state := by
  cases c with
  | reset => exact reset_inRange rm hfit s
  | config n_args kw_args =>
    simp only [Call.exec]
    rcases mod_radio_config_radio_state rm s n_args kw_args with h | h
    · rw [h]; exact hs
    · exact config_loop_inRange rm hfit kw_args _ _ hs h
  | turn_on => simpa [Call.exec, mod_radio_on, radio_enable_radio_state] using hs
  | turn_off => simpa [Call.exec, mod_radio_off, radio_disable_radio_state] using hs
  | send_bytes b =>
    simpa [Call.exec, mod_radio_send_bytes, radio_send_radio_state] using hs
  | send b => simpa [Call.exec, mod_radio_send, radio_send_radio_state] using hs
  | receive_bytes stack =>
    simpa [Call.exec, mod_radio_receive_bytes, radio_receive_radio_state] using hs
  | receive stack =>
    simpa [Call.exec, mod_radio_receive, radio_receive_radio_state] using hs

theorem run_inRange (rm : RadioMode) (hfit : rm.fits) (cs : List Call) :
    ∀ s : State, InRange rm s.radio_state → InRange rm (run rm s cs).radio_state := by
  induction cs with
  | nil => intro s hs; exact hs
  | cons c cs ih => intro s hs; exact ih _ (exec_inRange rm hfit s c hs)

/-- C2: in every state reached from `mod_radio_reset` by any sequence of
reset, config, on, off, send and receive calls, the committed `radio_state`
satisfies every range constraint, provided the three rate constants fit the
`uint8_t` field that stores them. -/
theorem radio_state_always_in_range (rm : RadioMode) (hfit : rm.fits) (s0 : State)
    (cs : List Call) : InRange rm (run rm (mod_radio_reset rm s0).2 cs).radio_state :=
  run_inRange rm hfit cs _ (reset_inRange rm hfit s0)

/-- C2 witness: the nRF51 constants fit, and after reset, a failing config,
a successful config, on, a send and a receive the state is in range. -/
theorem radio_state_always_in_range_witness :
    nrf51.fits ∧ InRange nrf51 (run nrf51 (mod_radio_reset nrf51 State.boot).2
      [.config 0 [(.length, 300)], .config 0 [(.queue, 5), (.power, 7)], .turn_on,
       .send [104, 105], .receive (fun _ => 0), .turn_off]).radio_state :=
  ⟨by decide, radio_state_always_in_range nrf51 (by decide) State.boot _⟩

/-! ## A single option on the converted value -/

theorem mod_radio_config_of_loop_ok (rm : RadioMode) (s : State) (kw_args : List (qstr × Int))
    (ns : radio_state_t) (h : config_loop rm s.radio_state kw_args = .ok ns) :
    (mod_radio_config rm s 0 kw_args).1 = .ret .none
      ∧ (mod_radio_config rm s 0 kw_args).2.radio_state = ns := by
  unfold mod_radio_config
  simp only [ne_eq, not_true_eq_false, if_false, h]
  cases hb : s.radio_buf with
  | none => simp
  | some blk =>
    simp only
    split
    · simp [radio_enable_radio_state]
    · simp

theorem mod_radio_config_of_loop_error (rm : RadioMode) (s : State) (n_args : Nat)
    (kw_args : List (qstr × Int)) (e : Exc)
    (h : config_loop rm s.radio_state kw_args = .error e) :
    ∃ e', (mod_radio_config rm s n_args kw_args).1 = .raise e' := by
  unfold mod_radio_config
  by_cases hn : n_args ≠ 0
  · exact ⟨.kwargs_only, by simp [hn]⟩
  · exact ⟨e, by simp [hn, h]⟩

theorem config_single (rm : RadioMode) (s : State) (k : qstr) (v : Int) :
    (∀ ns, config_arg rm s.radio_state k v = .ok ns →
      Succeeds (mod_radio_config rm s 0 [(k, v)])
        ∧ (mod_radio_config rm s 0 [(k, v)]).2.radio_state = ns)
    ∧ (∀ e, config_arg rm s.radio_state k v = .error e →
      ¬ Succeeds (mod_radio_config rm s 0 [(k, v)])) := by
  constructor
  · intro ns h
    exact mod_radio_config_of_loop_ok rm s [(k, v)] ns (by simp [config_loop, h])
  · intro e h hs
    obtain ⟨e', he'⟩ := mod_radio_config_of_loop_error rm s 0 [(k, v)] e
      (by simp [config_loop, h])
    unfold Succeeds at hs
    rw [he'] at hs
    cases hs

/-- One keyword option of a known key, on the converted value `v` (the
`mp_int_t` of line 333): the call succeeds exactly when `v` is in the key's
range, always for `address`, and on success the field of `radio_state` holds
`v` (for power the table entry at that index, for address `v` as a 32-bit
word). -/
theorem config_single_value (rm : RadioMode) (hfit : rm.fits) (s : State) (v : Int) :
    ((Succeeds (mod_radio_config rm s 0 [(.length, v)]) ↔ (1 ≤ v ∧ v ≤ 251))
      ∧ (Succeeds (mod_radio_config rm s 0 [(.length, v)]) →
          ((mod_radio_config rm s 0 [(.length, v)]).2.radio_state.max_payload : Int) = v))
    ∧ ((Succeeds (mod_radio_config rm s 0 [(.queue, v)]) ↔ (1 ≤ v ∧ v ≤ 254))
      ∧ (Succeeds (mod_radio_config rm s 0 [(.queue, v)]) →
          ((mod_radio_config rm s 0 [(.queue, v)]).2.radio_state.queue_len : Int) = v))
    ∧ ((Succeeds (mod_radio_config rm s 0 [(.channel, v)]) ↔ (0 ≤ v ∧ v ≤ 100))
      ∧ (Succeeds (mod_radio_config rm s 0 [(.channel, v)]) →
          ((mod_radio_config rm s 0 [(.channel, v)]).2.radio_state.channel : Int) = v))
    ∧ ((Succeeds (mod_radio_config rm s 0 [(.group, v)]) ↔ (0 ≤ v ∧ v ≤ 255))
      ∧ (Succeeds (mod_radio_config rm s 0 [(.group, v)]) →
          ((mod_radio_config rm s 0 [(.group, v)]).2.radio_state.prefix0 : Int) = v))
    ∧ ((Succeeds (mod_radio_config rm s 0 [(.power, v)]) ↔ (0 ≤ v ∧ v ≤ 7))
      ∧ (Succeeds (mod_radio_config rm s 0 [(.power, v)]) →
          power_dbm_table[v.toNat]?
            = some (mod_radio_config rm s 0 [(.power, v)]).2.radio_state.power_dbm))
    ∧ ((Succeeds (mod_radio_config rm s 0 [(.data_rate, v)]) ↔
          (v = rm.Nrf_250Kbit ∨ v = rm.Nrf_1Mbit ∨ v = rm.Nrf_2Mbit))
      ∧ (Succeeds (mod_radio_config rm s 0 [(.data_rate, v)]) →
          ((mod_radio_config rm s 0 [(.data_rate, v)]).2.radio_state.data_rate : Int) = v))
    ∧ (Succeeds (mod_radio_config rm s 0 [(.address, v)])
      ∧ (mod_radio_config rm s 0 [(.address, v)]).2.radio_state.base0 = u32 v
      ∧ ((mod_radio_config rm s 0 [(.address, v)]).2.radio_state.base0 : Int)
          = v % 4294967296) := by
  obtain ⟨f1, f2, f3⟩ := hfit
  have ranged : ∀ (k : qstr) (P : Prop) [Decidable P] (f : radio_state_t) ,
      config_arg rm s.radio_state k v
        = (if ¬ P then .error (.out_of_range k) else .ok f) →
      (Succeeds (mod_radio_config rm s 0 [(k, v)]) ↔ P)
      ∧ (Succeeds (mod_radio_config rm s 0 [(k, v)]) →
          (mod_radio_config rm s 0 [(k, v)]).2.radio_state = f ∧ P) := by
    intro k P _ f hc
    obtain ⟨hok, herr⟩ := config_single rm s k v
    by_cases hP : P
    · rw [if_neg (not_not.mpr hP)] at hc
      exact ⟨⟨fun _ => hP, fun _ => (hok f hc).1⟩, fun _ => ⟨(hok f hc).2, hP⟩⟩
    · rw [if_pos hP] at hc
      exact ⟨⟨fun h => absurd h (herr _ hc), fun h => absurd h hP⟩,
        fun h => absurd h (herr _ hc)⟩
  refine ⟨?_, ?_, ?_, ?_, ?_, ?_, ?_⟩
  · obtain ⟨h1, h2⟩ := ranged .length _ _ rfl
    refine ⟨h1, fun h => ?_⟩
    obtain ⟨he, hP⟩ := h2 h
    rw [he]
    exact u8_of_range v (by omega) (by omega)
  · obtain ⟨h1, h2⟩ := ranged .queue _ _ rfl
    refine ⟨h1, fun h => ?_⟩
    obtain ⟨he, hP⟩ := h2 h
    rw [he]
    exact u8_of_range v (by omega) (by omega)
  · obtain ⟨h1, h2⟩ := ranged .channel _ _ rfl
    refine ⟨h1, fun h => ?_⟩
    obtain ⟨he, hP⟩ := h2 h
    rw [he]
    exact u8_of_range v (by omega) (by omega)
  · obtain ⟨h1, h2⟩ := ranged .group _ _ rfl
    refine ⟨h1, fun h => ?_⟩
    obtain ⟨he, hP⟩ := h2 h
    rw [he]
    exact u8_of_range v (by omega) (by omega)
  · obtain ⟨h1, h2⟩ := ranged .power _ _ rfl
    refine ⟨h1, fun h => ?_⟩
    obtain ⟨he, hP⟩ := h2 h
    rw [he]
    have hlt : v.toNat < power_dbm_table.length := by
      simp only [power_dbm_table, List.length_cons, List.length_nil]; omega
    simp only [List.getD_eq_getElem?_getD]
    rw [List.getElem?_eq_getElem hlt]
    rfl
  · obtain ⟨h1, h2⟩ := ranged .data_rate _ _ rfl
    refine ⟨h1, fun h => ?_⟩
    obtain ⟨he, hP⟩ := h2 h
    rw [he]
    exact u8_of_range v (by omega) (by omega)
  · obtain ⟨hok, -⟩ := config_single rm s .address v
    obtain ⟨h1, h2⟩ := hok _ rfl
    refine ⟨h1, by rw [h2], ?_⟩
    rw [h2]
    simp only [u32]
    omega

/-! ## Claim C4 -/

theorem config_arg_untouched (rm : RadioMode) (rs rs' : radio_state_t) (k : qstr) (v : Int)
    (h : config_arg rm rs k v = .ok rs') : Untouched [k] rs rs' := by
  cases k <;> simp only [config_arg] at h
  case address =>
    injection h with h; subst h
    simp [Untouched]
  case other name => cases h
  all_goals
    split at h
    · cases h
    · injection h with h; subst h
      simp [Untouched]

theorem Untouched.trans {ks1 ks2 : List qstr} {a b c : radio_state_t}
    (h1 : Untouched ks1 a b) (h2 : Untouched ks2 b c) : Untouched (ks1 ++ ks2) a c := by
  obtain ⟨a1, a2, a3, a4, a5, a6, a7⟩ := h1
  obtain ⟨b1, b2, b3, b4, b5, b6, b7⟩ := h2
  simp only [Untouched, List.mem_append, not_or] at *
  exact ⟨fun h => (b1 h.2).trans (a1 h.1), fun h => (b2 h.2).trans (a2 h.1),
    fun h => (b3 h.2).trans (a3 h.1), fun h => (b4 h.2).trans (a4 h.1),
    fun h => (b5 h.2).trans (a5 h.1), fun h => (b6 h.2).trans (a6 h.1),
    fun h => (b7 h.2).trans (a7 h.1)⟩

theorem config_loop_untouched (rm : RadioMode) (kw_args : List (qstr × Int)) :
    ∀ (rs rs' : radio_state_t), config_loop rm rs kw_args = .ok rs' →
      Untouched (kw_args.map Prod.fst) rs rs' := by
  induction kw_args with
  | nil =>
    intro rs rs' h
    simp only [config_loop] at h
    injection h with h; subst h
    simp [Untouched]
  | cons kv rest ih =>
    intro rs rs' h
    obtain ⟨k, v⟩ := kv
    simp only [config_loop] at h
    cases hc : config_arg rm rs k v with
    | error e => rw [hc] at h; cases h
    | ok rs1 =>
      rw [hc] at h
      have := (config_arg_untouched rm rs rs1 k v hc).trans (ih rs1 rs' h)
      simpa using this

theorem succeeds_loop_ok (rm : RadioMode) (s : State) (n_args : Nat)
    (kw_args : List (qstr × Int)) (h : Succeeds (mod_radio_config rm s n_args kw_args)) :
    config_loop rm s.radio_state kw_args
      = .ok (mod_radio_config rm s n_args kw_args).2.radio_state := by
  by_cases hn : n_args = 0
  · subst hn
    cases hl : config_loop rm s.radio_state kw_args with
    | error e =>
      obtain ⟨e', he'⟩ := mod_radio_config_of_loop_error rm s 0 kw_args e hl
      unfold Succeeds at h
      rw [he'] at h
      cases h
    | ok ns => rw [(mod_radio_config_of_loop_ok rm s kw_args ns hl).2]
  · unfold Succeeds mod_radio_config at h
    simp [hn] at h

/-- C4: after a successful `mod_radio_config` whose options name the keys
`K`, every field of the committed `radio_state` whose key is not in `K` equals
the same field of the configuration committed before the call. -/
theorem config_keeps_unnamed_fields (rm : RadioMode) (s : State) (n_args : Nat)
    (kw_args : List (qstr × Int)) (h : Succeeds (mod_radio_config rm s n_args kw_args)) :
    Untouched (kw_args.map Prod.fst) s.radio_state
      (mod_radio_config rm s n_args kw_args).2.radio_state := by
  exact config_loop_untouched rm kw_args _ _ (succeeds_loop_ok rm s n_args kw_args h)

/-- C4 witness: on an enabled radio configured away from the defaults,
`config(channel=10)` succeeds and every field but the channel keeps the value
committed before. -/
theorem config_keeps_unnamed_fields_witness :
    Succeeds (mod_radio_config nrf51
        (run nrf51 State.boot [.reset, .config 0 [(.length, 100), (.power, 2)], .turn_on]) 0
        [(.channel, 10)])
    ∧ Untouched [.channel]
        (run nrf51 State.boot
          [.reset, .config 0 [(.length, 100), (.power, 2)], .turn_on]).radio_state
        (mod_radio_config nrf51
          (run nrf51 State.boot [.reset, .config 0 [(.length, 100), (.power, 2)], .turn_on]) 0
          [(.channel, 10)]).2.radio_state :=
  ⟨by decide, config_keeps_unnamed_fields nrf51 _ 0 [(.channel, 10)] (by decide)⟩

/-! ## Claim C5 -/

/-- C5: from any state, enabled or not, `radio_enable` leaves the radio
enabled with a buffer of exactly `(max_payload+1)*(queue_len+1)` bytes,
`buf_end` at that offset from the buffer start and `rx_buf` at offset
`max_payload+1`; the transmit slot `[0, max_payload+1)` and the receive region
`[max_payload+1, (max_payload+1)*(queue_len+1))` are disjoint and cover the
buffer, and the receive region is `queue_len` slots of `max_payload+1`
bytes. -/
theorem radio_enable_layout (s : State) :
    ∃ blk : Block,
      (radio_enable s).radio_buf = some blk
      ∧ blk.bytes.length = (s.radio_state.max_payload + 1) * (s.radio_state.queue_len + 1)
      ∧ (radio_enable s).buf_end
          = blk.addr + (s.radio_state.max_payload + 1) * (s.radio_state.queue_len + 1)
      ∧ (radio_enable s).rx_buf = blk.addr + (s.radio_state.max_payload + 1)
      ∧ (∀ i, ¬ (i < s.radio_state.max_payload + 1
            ∧ (s.radio_state.max_payload + 1 ≤ i
              ∧ i < (s.radio_state.max_payload + 1) * (s.radio_state.queue_len + 1))))
      ∧ (∀ i, i < blk.bytes.length ↔
            (i < s.radio_state.max_payload + 1
              ∨ (s.radio_state.max_payload + 1 ≤ i
                ∧ i < (s.radio_state.max_payload + 1) * (s.radio_state.queue_len + 1))))
      ∧ (radio_enable s).buf_end - (radio_enable s).rx_buf
          = s.radio_state.queue_len * (s.radio_state.max_payload + 1) := by
  have hrs := radio_disable_radio_state s
  refine ⟨⟨(radio_disable s).heap_next,
    List.replicate ((s.radio_state.max_payload + 1) * (s.radio_state.queue_len + 1)) 0⟩,
    ?_, ?_, ?_, ?_, ?_, ?_, ?_⟩
  · simp [radio_enable, m_new, hrs]
  · simp
  · simp [radio_enable, m_new, hrs]
  · simp [radio_enable, m_new, hrs]
  · intro i hi; omega
  · intro i
    simp only [List.length_replicate]
    have : s.radio_state.max_payload + 1
        ≤ (s.radio_state.max_payload + 1) * (s.radio_state.queue_len + 1) :=
      Nat.le_mul_of_pos_right _ (Nat.succ_pos _)
    omega
  · simp only [radio_enable, m_new, hrs]
    rw [Nat.mul_succ, Nat.mul_comm s.radio_state.queue_len]
    omega

/-! ## Claim C6 -/

/-- C6: `mod_radio_reset` on an enabled radio rewrites `radio_state` and
leaves the buffer.  After `config(length=100)`, `on` and `reset` the radio is
enabled with a buffer of `101 * 4 = 404` bytes while the committed
`radio_state` asks for `33 * 4 = 132`; a following `config(length=32)` finds
nothing changed and leaves the 404 bytes.  The same change made by
`config(length=32)` instead of `reset` rebuilds the buffer. -/
theorem geometry_broken_by_reset_while_enabled :
    (run nrf51 (mod_radio_reset nrf51 State.boot).2
        [.config 0 [(.length, 100)], .turn_on, .reset]).radio_buf ≠ none
    ∧ ¬ GeometryOK (run nrf51 (mod_radio_reset nrf51 State.boot).2
        [.config 0 [(.length, 100)], .turn_on, .reset])
    ∧ ¬ GeometryOK (run nrf51 (mod_radio_reset nrf51 State.boot).2
        [.config 0 [(.length, 100)], .turn_on, .reset, .config 0 [(.length, 32)]])
    ∧ GeometryOK (run nrf51 (mod_radio_reset nrf51 State.boot).2
        [.config 0 [(.length, 100)], .turn_on, .config 0 [(.length, 32)]]) := by
  refine ⟨?_, ?_, ?_, ?_⟩ <;> decide

theorem radio_disable_radio_buf (s : State) : (radio_disable s).radio_buf = none := by
  unfold radio_disable
  cases h : s.radio_buf <;> simp [h]

theorem radio_enable_geometry (s : State) : GeometryOK (radio_enable s) := by
  simp [GeometryOK, radio_enable, m_new, radio_disable_radio_state]

theorem mod_radio_config_geometry (rm : RadioMode) (s : State) (n_args : Nat)
    (kw_args : List (qstr × Int)) (hs : GeometryOK s) :
    GeometryOK (mod_radio_config rm s n_args kw_args).2 := by
  unfold mod_radio_config
  by_cases hn : n_args ≠ 0
  · simpa [hn] using hs
  · simp only [hn, if_false]
    cases hl : config_loop rm s.radio_state kw_args with
    | error e => simpa using hs
    | ok ns =>
      cases hb : s.radio_buf with
      | none => simp [GeometryOK, hb]
      | some blk =>
        simp only
        split
        · exact radio_enable_geometry _
        · rename_i hne
          simp only [not_or, not_not] at hne
          simp only [GeometryOK, hb] at hs ⊢
          rw [hne.1, hne.2]
          exact hs

/-! ## Byte stores -/

theorem store_append (a b data : List Nat) :
    store (a ++ b) a.length data = a ++ (data ++ b.drop data.length).take b.length := by
  unfold store
  rw [List.take_left, List.drop_append, List.append_assoc, List.length_append,
    List.take_append]

theorem max_len_lt (PCNF1 : Nat) : max_len PCNF1 < 256 :=
  Nat.lt_of_le_of_lt Nat.and_le_right (by decide)

/-! ## Claims C9 and C10: the compiled send and receive -/

/-- C9: the compiled `radio_receive(true)` does not raise on the two-byte
packet `01 00` when the byte of the automatic array `buf` after it holds 1 (as
it does when the previous call received a string): the test `len >= 2` lets
it through and `mp_obj_new_str(buf + 3, len - 3)` is called with the length
`2 - 3` wrapped to `0xFFFFFFFF`.  With any other value in that byte the same
packet raises "received packet is not a string". -/
theorem typed_receive_accepts_two_byte_packet :
    (mod_radio_receive
        (mod_radio_send_bytes (radio_enable (mod_radio_reset nrf51 State.boot).2) [1, 0]).2
        (fun i => [1, 0, 1, 104, 105].getD i 0)).1 = .ub .recv_buf_overread
    ∧ (mod_radio_receive
        (mod_radio_send_bytes (radio_enable (mod_radio_reset nrf51 State.boot).2) [1, 0]).2
        (fun i => [1, 0, 1, 104, 105].getD i 0)).1 ≠ .raise .not_a_string
    ∧ (mod_radio_receive
        (mod_radio_send_bytes (radio_enable (mod_radio_reset nrf51 State.boot).2) [1, 0]).2
        (fun _ => 0)).1 = .raise .not_a_string := by
  refine ⟨?_, ?_, ?_⟩ <;> decide

theorem map_getD_range (b : List Nat) (f : Nat → Nat) (hf : ∀ i, i < b.length → f i = b.getD i 0) :
    (List.range b.length).map f = b := by
  apply List.ext_getElem
  · simp
  · intro i h1 h2
    simp only [List.getElem_map, List.getElem_range]
    rw [hf i h2]
    simp [h2]

theorem radio_send_enabled (s : State) (buf buf2 : List Nat) (hen : s.radio_buf ≠ none)
    (hfit : buf.length + buf2.length ≤ 2048) :
    radio_send s buf buf2
      = (.ret .none, { s with sim := { s.sim with air := some (buf ++ buf2) } }) := by
  unfold radio_send
  cases hb : s.radio_buf with
  | none => exact absurd hb hen
  | some blk =>
    have h1 : ¬ buf.length + buf2.length > 2048 := by omega
    have h2 : (buf.length + buf2.length) % 4294967296 = (buf ++ buf2).length := by
      rw [List.length_append]; omega
    simp only [h1, if_false, h2, List.take_length, simulator_radio_send]

theorem radio_receive_air (s : State) (stack : Nat → Nat) (typed_packet : Bool)
    (pkt : List Nat) (hen : s.radio_buf ≠ none) (hair : s.sim.air = some pkt)
    (hcap : pkt.length ≤ 2048) :
    (radio_receive s stack typed_packet).1
      = if !typed_packet then .ret (.bytes pkt)
        else if pkt.length ≥ 2 ∧ (if 0 < pkt.length then pkt.getD 0 0 else stack 0) = 1
            ∧ (if 1 < pkt.length then pkt.getD 1 0 else stack 1) = 0
            ∧ (if 2 < pkt.length then pkt.getD 2 0 else stack 2) = 1 then
          if 3 + (pkt.length + 4294967296 - 3) % 4294967296 > 2048 then
            .ub .recv_buf_overread
          else .ret (.str ((List.range ((pkt.length + 4294967296 - 3) % 4294967296)).map
            (fun i => if 3 + i < pkt.length then pkt.getD (3 + i) 0 else stack (3 + i))))
        else .raise .not_a_string := by
  unfold radio_receive
  cases hb : s.radio_buf with
  | none => exact absurd hb hen
  | some blk =>
    simp only [simulator_radio_receive, hair, Option.map_some', List.take_of_length_le hcap]
    split_ifs <;> rfl

/-- C10: round trip over the loop-back double.  On an enabled radio, a byte
string `b` of at most 2048 bytes (the size of `send_buf`; every payload that
fits a packet is shorter) sent by `mod_radio_send_bytes` is what
`mod_radio_receive_bytes` returns next, and a text `b` with `3 + |b| ≤ 2048`
sent by `mod_radio_send` is what `mod_radio_receive` returns next. -/
theorem send_receive_round_trip (s : State) (stack : Nat → Nat) (b : List Nat)
    (hen : s.radio_buf ≠ none) :
    (b.length ≤ 2048 →
      (mod_radio_send_bytes s b).1 = .ret .none
      ∧ (mod_radio_receive_bytes (mod_radio_send_bytes s b).2 stack).1 = .ret (.bytes b))
    ∧ (3 + b.length ≤ 2048 →
      (mod_radio_send s b).1 = .ret .none
      ∧ (mod_radio_receive (mod_radio_send s b).2 stack).1 = .ret (.str b)) := by
  constructor
  · intro hlen
    have hs := radio_send_enabled s b [] hen (by simpa using hlen)
    simp only [mod_radio_send_bytes, mod_radio_receive_bytes, hs]
    refine ⟨trivial, ?_⟩
    refine Eq.trans (radio_receive_air _ stack false (b ++ []) ?_ rfl ?_) ?_
    · exact hen
    · simpa using hlen
    · simp
  · intro hlen
    have hs := radio_send_enabled s [1, 0, 1] b hen (by simpa using hlen)
    simp only [mod_radio_send, mod_radio_receive, hs]
    refine ⟨trivial, ?_⟩
    have hl : ([1, 0, 1] ++ b).length = 3 + b.length := by simp; omega
    refine Eq.trans (radio_receive_air _ stack true ([1, 0, 1] ++ b) ?_ rfl ?_) ?_
    · exact hen
    · rw [hl]; exact hlen
    have hn : (([1, 0, 1] ++ b).length + 4294967296 - 3) % 4294967296 = b.length := by
      rw [hl]; omega
    have h3 : ¬ 3 + b.length > 2048 := by omega
    have hc : ([1, 0, 1] ++ b).length ≥ 2
        ∧ (if 0 < ([1, 0, 1] ++ b).length then ([1, 0, 1] ++ b).getD 0 0 else stack 0) = 1
        ∧ (if 1 < ([1, 0, 1] ++ b).length then ([1, 0, 1] ++ b).getD 1 0 else stack 1) = 0
        ∧ (if 2 < ([1, 0, 1] ++ b).length then ([1, 0, 1] ++ b).getD 2 0 else stack 2) = 1 := by
      rw [hl, if_pos (by omega), if_pos (by omega), if_pos (by omega)]
      exact ⟨by omega, rfl, rfl, rfl⟩
    rw [if_neg (by decide), if_pos hc, hn, if_neg h3]
    rw [map_getD_range b _ (fun i hi => by
      rw [hl, if_pos (by omega), Nat.add_comm 3 i]
      rfl)]

/-- C10 witness: on the enabled default radio, `send_bytes(b"hi")` then
`receive_bytes()` gives `b"hi"`, and `send("hi")` then `receive()` gives
`"hi"`. -/
theorem send_receive_round_trip_witness :
    (mod_radio_receive_bytes
        (mod_radio_send_bytes (radio_enable (mod_radio_reset nrf51 State.boot).2) [104, 105]).2
        (fun _ => 7)).1 = .ret (.bytes [104, 105])
    ∧ (mod_radio_receive
        (mod_radio_send (radio_enable (mod_radio_reset nrf51 State.boot).2) [104, 105]).2
        (fun _ => 7)).1 = .ret (.str [104, 105]) :=
  ⟨((send_receive_round_trip (radio_enable (mod_radio_reset nrf51 State.boot).2) (fun _ => 7)
      [104, 105] (by decide)).1 (by decide)).2,
   ((send_receive_round_trip (radio_enable (mod_radio_reset nrf51 State.boot).2) (fun _ => 7)
      [104, 105] (by decide)).2 (by decide)).2⟩

/-! ## Claims C12 and C13: reconfiguration of an enabled radio; claim C14 -/

theorem mod_radio_config_enabled_eq (rm : RadioMode) (s : State) (kw_args : List (qstr × Int))
    (ns : radio_state_t) (hen : s.radio_buf ≠ none)
    (hl : config_loop rm s.radio_state kw_args = .ok ns) :
    mod_radio_config rm s 0 kw_args
      = (.ret .none,
          if ns.max_payload ≠ s.radio_state.max_payload
              ∨ ns.queue_len ≠ s.radio_state.queue_len then
            radio_enable { radio_disable s with radio_state := ns }
          else
            { s with
              radio_state := ns
              sim := simulator_radio_config s.sim ns.channel ns.base0 ns.prefix0 ns.data_rate }) := by
  unfold mod_radio_config
  simp only [ne_eq, not_true_eq_false, if_false, hl]
  cases hb : s.radio_buf with
  | none => exact absurd hb hen
  | some blk =>
    simp only
    split <;> rfl

theorem succeeds_n_args (rm : RadioMode) (s : State) (n_args : Nat)
    (kw_args : List (qstr × Int)) (h : Succeeds (mod_radio_config rm s n_args kw_args)) :
    n_args = 0 := by
  by_contra hn
  unfold Succeeds mod_radio_config at h
  simp [hn] at h

theorem radio_enable_buffer (s : State) :
    ∃ blk : Block,
      (radio_enable s).radio_buf = some blk
      ∧ blk.bytes.length = (s.radio_state.max_payload + 1) * (s.radio_state.queue_len + 1)
      ∧ (radio_enable s).buf_end
          = blk.addr + (s.radio_state.max_payload + 1) * (s.radio_state.queue_len + 1)
      ∧ (radio_enable s).rx_buf = blk.addr + (s.radio_state.max_payload + 1) := by
  have hrs := radio_disable_radio_state s
  refine ⟨⟨(radio_disable s).heap_next,
    List.replicate ((s.radio_state.max_payload + 1) * (s.radio_state.queue_len + 1)) 0⟩,
    ?_, ?_, ?_, ?_⟩
  · simp [radio_enable, m_new, hrs]
  · simp
  · simp [radio_enable, m_new, hrs]
  · simp [radio_enable, m_new, hrs]

/-- C12: on an enabled radio, a successful `mod_radio_config` whose new
`max_payload` or `queue_len` differs from the committed one leaves the radio
enabled with the new configuration committed, a buffer of exactly
`(max_payload+1)*(queue_len+1)` bytes for the new values, and the frontier
`rx_buf` at the start of the receive region: the queue is empty whatever was
queued before. -/
theorem config_geometry_change_rebuilds (rm : RadioMode) (s : State) (n_args : Nat)
    (kw_args : List (qstr × Int)) (hen : s.radio_buf ≠ none)
    (hok : Succeeds (mod_radio_config rm s n_args kw_args))
    (hgeo : (mod_radio_config rm s n_args kw_args).2.radio_state.max_payload
          ≠ s.radio_state.max_payload
        ∨ (mod_radio_config rm s n_args kw_args).2.radio_state.queue_len
          ≠ s.radio_state.queue_len) :
    config_loop rm s.radio_state kw_args
        = .ok (mod_radio_config rm s n_args kw_args).2.radio_state
    ∧ ∃ blk : Block,
        (mod_radio_config rm s n_args kw_args).2.radio_buf = some blk
        ∧ blk.bytes.length
            = ((mod_radio_config rm s n_args kw_args).2.radio_state.max_payload + 1)
              * ((mod_radio_config rm s n_args kw_args).2.radio_state.queue_len + 1)
        ∧ (mod_radio_config rm s n_args kw_args).2.buf_end
            = blk.addr
              + ((mod_radio_config rm s n_args kw_args).2.radio_state.max_payload + 1)
                * ((mod_radio_config rm s n_args kw_args).2.radio_state.queue_len + 1)
        ∧ (mod_radio_config rm s n_args kw_args).2.rx_buf
            = blk.addr
              + ((mod_radio_config rm s n_args kw_args).2.radio_state.max_payload + 1) := by
  have hl := succeeds_loop_ok rm s n_args kw_args hok
  have hn := succeeds_n_args rm s n_args kw_args hok
  subst hn
  refine ⟨hl, ?_⟩
  generalize hns : (mod_radio_config rm s 0 kw_args).2.radio_state = ns at hl hgeo ⊢
  have heq := mod_radio_config_enabled_eq rm s kw_args ns hen hl
  rw [if_pos hgeo] at heq
  rw [heq]
  exact radio_enable_buffer { radio_disable s with radio_state := ns }

/-- C12 witness: enabled default radio, `config(queue=5)`. -/
theorem config_geometry_change_rebuilds_witness :
    (radio_enable (mod_radio_reset nrf51 State.boot).2).radio_buf ≠ none
    ∧ Succeeds (mod_radio_config nrf51 (radio_enable (mod_radio_reset nrf51 State.boot).2) 0
        [(.queue, 5)])
    ∧ ∃ blk : Block,
        (mod_radio_config nrf51 (radio_enable (mod_radio_reset nrf51 State.boot).2) 0
          [(.queue, 5)]).2.radio_buf = some blk
        ∧ blk.bytes.length
            = ((mod_radio_config nrf51 (radio_enable (mod_radio_reset nrf51 State.boot).2) 0
                [(.queue, 5)]).2.radio_state.max_payload + 1)
              * ((mod_radio_config nrf51 (radio_enable (mod_radio_reset nrf51 State.boot).2) 0
                [(.queue, 5)]).2.radio_state.queue_len + 1)
        ∧ (mod_radio_config nrf51 (radio_enable (mod_radio_reset nrf51 State.boot).2) 0
            [(.queue, 5)]).2.buf_end
            = blk.addr
              + ((mod_radio_config nrf51 (radio_enable (mod_radio_reset nrf51 State.boot).2) 0
                  [(.queue, 5)]).2.radio_state.max_payload + 1)
                * ((mod_radio_config nrf51 (radio_enable (mod_radio_reset nrf51 State.boot).2) 0
                  [(.queue, 5)]).2.radio_state.queue_len + 1)
        ∧ (mod_radio_config nrf51 (radio_enable (mod_radio_reset nrf51 State.boot).2) 0
            [(.queue, 5)]).2.rx_buf
            = blk.addr
              + ((mod_radio_config nrf51 (radio_enable (mod_radio_reset nrf51 State.boot).2) 0
                  [(.queue, 5)]).2.radio_state.max_payload + 1) :=
  ⟨by decide, by decide,
   (config_geometry_change_rebuilds nrf51 (radio_enable (mod_radio_reset nrf51 State.boot).2) 0
      [(.queue, 5)] (by decide) (by decide) (by decide)).2⟩

/-- C13: on an enabled radio, a successful `mod_radio_config` that leaves
`max_payload` and `queue_len` unchanged keeps the buffer (same block, same
bytes), `rx_buf` and `buf_end`, commits the new configuration, and issues
exactly one hardware configure call, with the new channel, address, group and
data rate. -/
theorem config_live_patch (rm : RadioMode) (s : State) (n_args : Nat)
    (kw_args : List (qstr × Int)) (hen : s.radio_buf ≠ none)
    (hok : Succeeds (mod_radio_config rm s n_args kw_args))
    (hsame : (mod_radio_config rm s n_args kw_args).2.radio_state.max_payload
          = s.radio_state.max_payload
        ∧ (mod_radio_config rm s n_args kw_args).2.radio_state.queue_len
          = s.radio_state.queue_len) :
    config_loop rm s.radio_state kw_args
        = .ok (mod_radio_config rm s n_args kw_args).2.radio_state
    ∧ (mod_radio_config rm s n_args kw_args).2.radio_buf = s.radio_buf
    ∧ (mod_radio_config rm s n_args kw_args).2.rx_buf = s.rx_buf
    ∧ (mod_radio_config rm s n_args kw_args).2.buf_end = s.buf_end
    ∧ (mod_radio_config rm s n_args kw_args).2.sim.configs
        = ((mod_radio_config rm s n_args kw_args).2.radio_state.channel,
           (mod_radio_config rm s n_args kw_args).2.radio_state.base0,
           (mod_radio_config rm s n_args kw_args).2.radio_state.prefix0,
           (mod_radio_config rm s n_args kw_args).2.radio_state.data_rate) :: s.sim.configs := by
  have hl := succeeds_loop_ok rm s n_args kw_args hok
  have hn := succeeds_n_args rm s n_args kw_args hok
  subst hn
  refine ⟨hl, ?_⟩
  generalize hns : (mod_radio_config rm s 0 kw_args).2.radio_state = ns at hl hsame ⊢
  have heq := mod_radio_config_enabled_eq rm s kw_args ns hen hl
  rw [if_neg (by rw [hsame.1, hsame.2]; simp)] at heq
  rw [heq]
  exact ⟨rfl, rfl, rfl, rfl⟩

/-- C13 witness: enabled default radio, `config(channel=42)`. -/
theorem config_live_patch_witness :
    (radio_enable (mod_radio_reset nrf51 State.boot).2).radio_buf ≠ none
    ∧ Succeeds (mod_radio_config nrf51 (radio_enable (mod_radio_reset nrf51 State.boot).2) 0
        [(.channel, 42)])
    ∧ (mod_radio_config nrf51 (radio_enable (mod_radio_reset nrf51 State.boot).2) 0
        [(.channel, 42)]).2.radio_buf = (radio_enable (mod_radio_reset nrf51 State.boot).2).radio_buf
    ∧ (mod_radio_config nrf51 (radio_enable (mod_radio_reset nrf51 State.boot).2) 0
        [(.channel, 42)]).2.sim.configs
        = (42, 0x75626974, 0, 0)
          :: (radio_enable (mod_radio_reset nrf51 State.boot).2).sim.configs :=
  ⟨by decide, by decide,
   (config_live_patch nrf51 (radio_enable (mod_radio_reset nrf51 State.boot).2) 0
      [(.channel, 42)] (by decide) (by decide) (by decide)).2.1,
   (config_live_patch nrf51 (radio_enable (mod_radio_reset nrf51 State.boot).2) 0
      [(.channel, 42)] (by decide) (by decide) (by decide)).2.2.2.2⟩

/-- C14: while the radio is disabled, `radio_send` and `radio_receive` raise
"radio is not enabled" and return the state they were given: nothing is
transmitted, no packet is consumed.  While it is enabled neither raises that
error. -/
theorem send_receive_need_enabled (s : State) (buf buf2 : List Nat) (stack : Nat → Nat)
    (typed_packet : Bool) :
    (s.radio_buf = none →
      radio_send s buf buf2 = (.raise .not_enabled, s)
      ∧ radio_receive s stack typed_packet = (.raise .not_enabled, s))
    ∧ (s.radio_buf ≠ none →
      (radio_send s buf buf2).1 ≠ .raise .not_enabled
      ∧ (radio_receive s stack typed_packet).1 ≠ .raise .not_enabled) := by
  constructor
  · intro hb
    simp only [radio_send, radio_receive, hb, and_self]
  · intro hen
    cases hb : s.radio_buf with
    | none => exact absurd hb hen
    | some blk =>
      constructor
      · simp only [radio_send, hb]
        split <;> simp
      · simp only [radio_receive, hb, simulator_radio_receive]
        cases s.sim.air with
        | none => simp
        | some pkt =>
          simp only [Option.map_some']
          split_ifs <;> simp

/-- C14 witness: the boot state is disabled and both calls raise; after
`radio_enable` neither raises "radio is not enabled". -/
theorem send_receive_need_enabled_witness :
    (radio_send State.boot [1, 2] [3] = (.raise .not_enabled, State.boot)
      ∧ radio_receive State.boot (fun _ => 0) true = (.raise .not_enabled, State.boot))
    ∧ ((radio_send (radio_enable State.boot) [1, 2] [3]).1 ≠ .raise .not_enabled
      ∧ (radio_receive (radio_enable State.boot) (fun _ => 0) true).1 ≠ .raise .not_enabled) :=
  ⟨(send_receive_need_enabled State.boot [1, 2] [3] (fun _ => 0) true).1 rfl,
   (send_receive_need_enabled (radio_enable State.boot) [1, 2] [3] (fun _ => 0) true).2
     (by decide)⟩

/-! ## The power table; claims C18 and C19 -/

/-- The option `power` on the converted value `i` (the `mp_int_t` of line
333): with `i` in 0..7 the call succeeds and commits the `i`-th entry of the
table `[-30, -20, -16, -12, -8, -4, 0, 4]`; with any other `i` it raises the
out-of-range error for `power` before the table is read and leaves the state
untouched. -/
theorem config_power_value (rm : RadioMode) (s : State) (i : Int) :
    ((0 ≤ i ∧ i ≤ 7) →
      Succeeds (mod_radio_config rm s 0 [(.power, i)])
      ∧ ([-30, -20, -16, -12, -8, -4, 0, 4] : List Int)[i.toNat]?
          = some (mod_radio_config rm s 0 [(.power, i)]).2.radio_state.power_dbm)
    ∧ (¬ (0 ≤ i ∧ i ≤ 7) →
      mod_radio_config rm s 0 [(.power, i)] = (.raise (.out_of_range .power), s)) := by
  constructor
  · intro hi
    have hc : config_arg rm s.radio_state .power i
        = .ok { s.radio_state with power_dbm := power_dbm_table.getD i.toNat 0 } := by
      simp only [config_arg, not_not.mpr hi, if_false]
    obtain ⟨h1, h2⟩ := (config_single rm s .power i).1 _ hc
    refine ⟨h1, ?_⟩
    rw [h2]
    have hlt : i.toNat < 8 := by omega
    show _ = some (power_dbm_table.getD i.toNat 0)
    generalize i.toNat = n at hlt
    interval_cases n <;> rfl
  · intro hi
    simp only [mod_radio_config, ne_eq, not_true_eq_false, if_false, config_loop, config_arg, hi,
      not_false_eq_true, if_true]

/-- C18: from every prior state `mod_radio_reset` commits the defaults
`max_payload = 32`, `queue_len = 3`, `channel = 7`, `power_dbm = 0`,
`base0 = 0x75626974`, `prefix0 = 0` and `data_rate` the 1 Mbit constant
(assumed to fit the `uint8_t` field), and touches nothing else. -/
theorem reset_commits_defaults (rm : RadioMode) (hfit : rm.fits) (s : State) :
    (mod_radio_reset rm s).1 = .ret .none
    ∧ (mod_radio_reset rm s).2.radio_state
        = { max_payload := 32, queue_len := 3, channel := 7, power_dbm := 0,
            base0 := 0x75626974, prefix0 := 0, data_rate := rm.Nrf_1Mbit }
    ∧ (mod_radio_reset rm s).2 = { s with radio_state := (mod_radio_reset rm s).2.radio_state } := by
  obtain ⟨f1, -, -⟩ := hfit
  refine ⟨rfl, ?_, rfl⟩
  simp only [mod_radio_reset, RADIO_DEFAULT_MAX_PAYLOAD, RADIO_DEFAULT_QUEUE_LEN,
    RADIO_DEFAULT_CHANNEL, RADIO_DEFAULT_POWER_DBM, RADIO_DEFAULT_BASE0, RADIO_DEFAULT_PREFIX0,
    RADIO_DEFAULT_DATA_RATE, Nat.mod_eq_of_lt f1]

/-- C18 witness: reset of an enabled, reconfigured radio with the nRF51
constants. -/
theorem reset_commits_defaults_witness :
    nrf51.fits
    ∧ (mod_radio_reset nrf51
        (run nrf51 State.boot [.config 0 [(.length, 100), (.group, 9)], .turn_on])).2.radio_state
        = { max_payload := 32, queue_len := 3, channel := 7, power_dbm := 0,
            base0 := 0x75626974, prefix0 := 0, data_rate := 0 } :=
  ⟨by decide, (reset_commits_defaults nrf51 (by decide) _).2.1⟩

/-- C19: `radio_disable` leaves the radio disabled with `radio_state`
unchanged, and a second `radio_disable` changes nothing more; the same holds
for `mod_radio_off`. -/
theorem radio_disable_idempotent (s : State) :
    (radio_disable s).radio_buf = none
    ∧ (radio_disable s).radio_state = s.radio_state
    ∧ radio_disable (radio_disable s) = radio_disable s
    ∧ (mod_radio_off (mod_radio_off s).2).2 = (mod_radio_off s).2 := by
  have h1 := radio_disable_radio_buf s
  have h3 : radio_disable (radio_disable s) = radio_disable s := by
    generalize radio_disable s = t at h1
    simp only [radio_disable, h1]
  exact ⟨h1, radio_disable_radio_state s, h3, h3⟩

/-! ## Known and unknown keys -/

theorem config_arg_of_valid (rm : RadioMode) (rs : radio_state_t) (k : qstr) (v : Int)
    (hk : k.isKnown = true) (hv : ValidValue rm k v) :
    ∃ rs', config_arg rm rs k v = .ok rs' := by
  cases k <;> simp only [ValidValue] at hv
  case address => exact ⟨_, rfl⟩
  all_goals
    simp only [config_arg, not_not.mpr hv, if_false]
    exact ⟨_, rfl⟩

theorem config_arg_of_unknown (rm : RadioMode) (rs : radio_state_t) (k : qstr) (v : Int)
    (hk : k.isKnown = false) : config_arg rm rs k v = .error (.unknown_argument k) := by
  cases k <;> simp [qstr.isKnown] at hk
  rfl

/-! ## Claim C11: truncation on send -/

/-- C11: the compiled `radio_send` does not truncate.  On the enabled default
radio (`max_payload = 32`) `send_bytes` of 40 bytes hands all 40 bytes to the
hardware, and `send` of a 40-character text hands 43; the claim allows 32. -/
theorem compiled_send_does_not_truncate :
    (mod_radio_send_bytes (radio_enable (mod_radio_reset nrf51 State.boot).2)
        (List.replicate 40 7)).2.sim.air = some (List.replicate 40 7)
    ∧ ((mod_radio_send (radio_enable (mod_radio_reset nrf51 State.boot).2)
        (List.replicate 40 7)).2.sim.air.map List.length) = some 43
    ∧ (radio_enable (mod_radio_reset nrf51 State.boot).2).radio_state.max_payload = 32 := by
  refine ⟨?_, ?_, ?_⟩ <;> decide

theorem store_within (a b data : List Nat) (h : data.length ≤ b.length) :
    store (a ++ b) a.length data = a ++ (data ++ b.drop data.length) := by
  rw [store_append, List.take_of_length_le]
  simp only [List.length_append, List.length_drop]; omega

theorem store_nil (bytes : List Nat) (off : Nat) : store bytes off [] = bytes := by
  simp [store]

theorem send_reg_lengths (M : Nat) (buf buf2 : List Nat) :
    ∃ len len2,
      (if buf.length + buf2.length > M then
          if buf.length > M then (M, 0) else (buf.length, M - buf.length)
        else (buf.length, buf2.length)) = (len, len2)
      ∧ len ≤ buf.length ∧ len2 ≤ buf2.length ∧ len + len2 ≤ M
      ∧ buf.take len ++ buf2.take len2 = (buf ++ buf2).take M := by
  by_cases h1 : buf.length + buf2.length > M
  · by_cases h2 : buf.length > M
    · refine ⟨M, 0, by simp only [h1, h2, if_true], by omega, by omega, by omega, ?_⟩
      rw [List.take_zero, List.append_nil,
        List.take_append_of_le_length (show M ≤ buf.length by omega)]
    · refine ⟨buf.length, M - buf.length, by simp only [h1, h2, if_true, if_false],
        by omega, by omega, by omega, ?_⟩
      rw [List.take_length, List.take_append_eq_append_take,
        List.take_of_length_le (show buf.length ≤ M by omega)]
  · refine ⟨buf.length, buf2.length, by simp only [h1, if_false], by omega, by omega,
      by omega, ?_⟩
    rw [List.take_length, List.take_length, List.take_of_length_le]
    simp only [List.length_append]; omega

/-- The register-level framing does what C11 states: the transmitted payload
is `p1 ++ p2` cut to the programmed maximum, the second part losing its tail
first. -/
theorem radio_send_reg_truncates (PCNF1 : Nat) (s : State) (buf buf2 : List Nat) (blk : Block)
    (hb : s.radio_buf = some blk) (hroom : max_len PCNF1 + 1 ≤ blk.bytes.length) :
    (radio_send_reg PCNF1 s buf buf2).1 = .ret .none
    ∧ radio_tx_payload (radio_send_reg PCNF1 s buf buf2).2
        = some ((buf ++ buf2).take (max_len PCNF1)) := by
  obtain ⟨len, len2, hlens, hl1, hl2, hsum, htake⟩ := send_reg_lengths (max_len PCNF1) buf buf2
  have hM := max_len_lt PCNF1
  obtain ⟨addr, bytes⟩ := blk
  cases bytes with
  | nil => simp at hroom
  | cons b0 rest =>
    simp only [List.length_cons] at hroom
    have hd1 : (buf.take len).length = len := by rw [List.length_take]; omega
    have hd2 : (buf2.take len2).length = len2 := by rw [List.length_take]; omega
    have hs1 : store ((len + len2) % 256 :: rest) 1 (buf.take len)
        = (len + len2) % 256 :: (buf.take len ++ rest.drop len) := by
      have := store_within [(len + len2) % 256] rest (buf.take len) (by rw [hd1]; omega)
      simpa [hd1] using this
    have hs2 : store ((len + len2) % 256 :: (buf.take len ++ rest.drop len)) (1 + len)
          (buf2.take len2)
        = (len + len2) % 256 :: (buf.take len ++ (buf2.take len2 ++ (rest.drop len).drop len2)) := by
      have := store_within ((len + len2) % 256 :: buf.take len) (rest.drop len) (buf2.take len2)
        (by rw [hd2, List.length_drop]; omega)
      simp only [List.length_cons, hd1, hd2, List.cons_append, Nat.add_comm len 1] at this
      exact this
    have hboth : (if len2 ≠ 0 then
          store ((len + len2) % 256 :: (buf.take len ++ rest.drop len)) (1 + len)
            (buf2.take len2)
        else (len + len2) % 256 :: (buf.take len ++ rest.drop len))
        = (len + len2) % 256 :: (buf.take len ++ (buf2.take len2 ++ (rest.drop len).drop len2)) := by
      by_cases h0 : len2 = 0
      · subst h0; simp
      · rw [if_pos h0, hs2]
    simp only [radio_send_reg, hb, hlens, List.set_cons_zero, hs1, hboth, radio_tx_payload,
      Option.map_some', true_and]
    congr 1
    simp only [List.drop_succ_cons, List.drop_zero, List.getD_cons_zero]
    rw [Nat.mod_eq_of_lt (by omega), ← List.append_assoc, htake]
    have hlen : ((buf ++ buf2).take (max_len PCNF1)).length = len + len2 := by
      rw [← htake, List.length_append, hd1, hd2]
    rw [← hlen, List.take_left]

/-! ## Reception with no packet pending; claim C22 -/

theorem radio_receive_no_packet (s : State) (stack : Nat → Nat) (typed_packet : Bool)
    (hen : s.radio_buf ≠ none) (hair : s.sim.air = none) :
    radio_receive s stack typed_packet = (.ret .none, s) := by
  obtain ⟨rs, rb, be, rx, hn, ⟨cfgs, air⟩⟩ := s
  simp only at hair hen
  subst hair
  cases rb with
  | none => exact absurd rfl hen
  | some blk => rfl

theorem radio_send_overrun (s : State) (buf buf2 : List Nat) (hen : s.radio_buf ≠ none)
    (hbig : buf.length + buf2.length > 2048) :
    radio_send s buf buf2 = (.ub .send_buf_overrun, s) := by
  unfold radio_send
  cases hb : s.radio_buf with
  | none => exact absurd hb hen
  | some blk => simp only [hbig, if_true]

/-- C22: the compiled `radio_send` copies `len + len2` bytes into
`send_buf[2048]` without a bound.  On the enabled default radio `send_bytes`
of 2049 bytes and `send` of a 2046-character text (3 tag bytes in front) both
write past the end of the array. -/
theorem send_overruns_send_buf :
    (mod_radio_send_bytes (radio_enable (mod_radio_reset nrf51 State.boot).2)
        (List.replicate 2049 0)).1 = .ub .send_buf_overrun
    ∧ (mod_radio_send (radio_enable (mod_radio_reset nrf51 State.boot).2)
        (List.replicate 2046 97)).1 = .ub .send_buf_overrun := by
  constructor
  · rw [mod_radio_send_bytes, radio_send_overrun _ _ _ (by decide)
      (by simp only [List.length_replicate, List.length_nil]; omega)]
  · rw [mod_radio_send, radio_send_overrun _ _ _ (by decide)
      (by simp only [List.length_replicate, List.length_cons, List.length_nil]; omega)]

/-! ## Claim C23: order of the keyword options -/

theorem config_arg_eq (rm : RadioMode) (rs : radio_state_t) (k : qstr) (v : Int) :
    config_arg rm rs k v
      = if ValidValue rm k v then .ok (written rs k v)
        else .error (if k.isKnown then .out_of_range k else .unknown_argument k) := by
  cases k <;> simp only [config_arg, ValidValue, written, qstr.isKnown, if_true, if_false,
    Bool.false_eq_true]
  all_goals split_ifs <;> rfl

theorem written_comm (rs : radio_state_t) (k1 k2 : qstr) (v1 v2 : Int) (hne : k1 ≠ k2) :
    written (written rs k1 v1) k2 v2 = written (written rs k2 v2) k1 v1 := by
  cases k1 <;> cases k2 <;> first | rfl | exact absurd rfl hne

theorem config_loop_swap (rm : RadioMode) (rs : radio_state_t) (k1 k2 : qstr) (v1 v2 : Int)
    (l : List (qstr × Int)) (hne : k1 ≠ k2) :
    (config_loop rm rs ((k1, v1) :: (k2, v2) :: l)).toOption
      = (config_loop rm rs ((k2, v2) :: (k1, v1) :: l)).toOption := by
  simp only [config_loop, config_arg_eq]
  by_cases h1 : ValidValue rm k1 v1 <;> by_cases h2 : ValidValue rm k2 v2 <;>
    simp only [h1, h2, if_true, if_false, written_comm rs k1 k2 v1 v2 hne]
  all_goals rfl

theorem config_loop_perm (rm : RadioMode) {l1 l2 : List (qstr × Int)} (hp : l1.Perm l2) :
    ∀ rs : radio_state_t, (l1.map Prod.fst).Nodup →
      (config_loop rm rs l1).toOption = (config_loop rm rs l2).toOption := by
  induction hp with
  | nil => intro rs _; rfl
  | cons x _ ih =>
    intro rs hnd
    obtain ⟨k, v⟩ := x
    simp only [List.map_cons, List.nodup_cons] at hnd
    simp only [config_loop]
    cases config_arg rm rs k v with
    | error e => rfl
    | ok rs1 => exact ih rs1 hnd.2
  | swap x y l =>
    intro rs hnd
    obtain ⟨k1, v1⟩ := x
    obtain ⟨k2, v2⟩ := y
    simp only [List.map_cons, List.nodup_cons, List.mem_cons, not_or] at hnd
    exact config_loop_swap rm rs k2 k1 v2 v1 l hnd.1.1
  | trans h1 _ ih1 ih2 =>
    intro rs hnd
    exact (ih1 rs hnd).trans (ih2 rs ((h1.map Prod.fst).nodup_iff.mp hnd))

theorem mod_radio_config_of_loop (rm : RadioMode) (s : State) (n_args : Nat)
    (kw_args kw_args' : List (qstr × Int))
    (h : (config_loop rm s.radio_state kw_args).toOption
      = (config_loop rm s.radio_state kw_args').toOption) :
    (Succeeds (mod_radio_config rm s n_args kw_args)
        ↔ Succeeds (mod_radio_config rm s n_args kw_args'))
    ∧ (mod_radio_config rm s n_args kw_args).2 = (mod_radio_config rm s n_args kw_args').2
    ∧ (¬ Succeeds (mod_radio_config rm s n_args kw_args) →
        (mod_radio_config rm s n_args kw_args).2 = s) := by
  unfold Succeeds mod_radio_config
  by_cases hn : n_args ≠ 0
  · simp only [if_pos hn]
    simp
  · simp only [if_neg hn]
    cases h1 : config_loop rm s.radio_state kw_args with
    | error e1 =>
      cases h2 : config_loop rm s.radio_state kw_args' with
      | error e2 => simp
      | ok ns2 => rw [h1, h2] at h; cases h
    | ok ns1 =>
      cases h2 : config_loop rm s.radio_state kw_args' with
      | error e2 => rw [h1, h2] at h; cases h
      | ok ns2 =>
        rw [h1, h2] at h
        injection h with h
        subst h
        refine ⟨Iff.rfl, rfl, fun hns => ?_⟩
        exfalso
        apply hns
        cases s.radio_buf with
        | none => rfl
        | some blk =>
          simp only
          split <;> rfl

/-- C23: order independence of `mod_radio_config`.  For keyword options with
pairwise distinct keys, every permutation of the options gives the same
outcome: both calls succeed or both raise (the key named may differ), the
state after the call, `radio_state` included, is the same, and when the call
raises it is the state before the call. -/
theorem config_order_independent (rm : RadioMode) (s : State) (n_args : Nat)
    (kw_args kw_args' : List (qstr × Int)) (hperm : kw_args.Perm kw_args')
    (hnd : (kw_args.map Prod.fst).Nodup) :
    (Succeeds (mod_radio_config rm s n_args kw_args)
        ↔ Succeeds (mod_radio_config rm s n_args kw_args'))
    ∧ (mod_radio_config rm s n_args kw_args).2.radio_state
        = (mod_radio_config rm s n_args kw_args').2.radio_state
    ∧ (mod_radio_config rm s n_args kw_args).2 = (mod_radio_config rm s n_args kw_args').2
    ∧ (¬ Succeeds (mod_radio_config rm s n_args kw_args) →
        (mod_radio_config rm s n_args kw_args).2.radio_state = s.radio_state
        ∧ (mod_radio_config rm s n_args kw_args').2.radio_state = s.radio_state) := by
  obtain ⟨h1, h2, h3⟩ := mod_radio_config_of_loop rm s n_args kw_args kw_args'
    (config_loop_perm rm hperm s.radio_state hnd)
  refine ⟨h1, by rw [h2], h2, fun hns => ?_⟩
  rw [← h2, h3 hns]
  exact ⟨rfl, rfl⟩

/-- C23 witness: `config(length=64, channel=300, power=9)` and the same
options reversed both raise (naming `channel` and `power`) and leave the
default state; `config(length=64, group=7)` commits the same state in both
orders. -/
theorem config_order_independent_witness :
    ((mod_radio_config nrf51 (mod_radio_reset nrf51 State.boot).2 0
        [(.length, 64), (.channel, 300), (.power, 9)]).1 = .raise (.out_of_range .channel)
      ∧ (mod_radio_config nrf51 (mod_radio_reset nrf51 State.boot).2 0
        [(.power, 9), (.channel, 300), (.length, 64)]).1 = .raise (.out_of_range .power)
      ∧ (mod_radio_config nrf51 (mod_radio_reset nrf51 State.boot).2 0
          [(.length, 64), (.channel, 300), (.power, 9)]).2
        = (mod_radio_config nrf51 (mod_radio_reset nrf51 State.boot).2 0
          [(.power, 9), (.channel, 300), (.length, 64)]).2)
    ∧ (mod_radio_config nrf51 (mod_radio_reset nrf51 State.boot).2 0
          [(.length, 64), (.group, 7)]).2.radio_state
        = (mod_radio_config nrf51 (mod_radio_reset nrf51 State.boot).2 0
          [(.group, 7), (.length, 64)]).2.radio_state :=
  ⟨⟨by decide, by decide,
    (config_order_independent nrf51 (mod_radio_reset nrf51 State.boot).2 0
      [(.length, 64), (.channel, 300), (.power, 9)] [(.power, 9), (.channel, 300), (.length, 64)]
      (by decide) (by decide)).2.2.1⟩,
   (config_order_independent nrf51 (mod_radio_reset nrf51 State.boot).2 0
      [(.length, 64), (.group, 7)] [(.group, 7), (.length, 64)]
      (by decide) (by decide)).2.1⟩

/-! ## Option values before conversion: claims C3, C17 and C20 -/

theorem mp_int_t_of_range (v : Int) (h1 : -2147483648 ≤ v) (h2 : v < 2147483648) :
    mp_int_t v = v := by
  unfold mp_int_t
  omega

theorem config_loop_obj_int (rm : RadioMode) (kw_args : List (qstr × Int)) :
    ∀ rs : radio_state_t,
      config_loop_obj rm rs (kw_args.map (fun kv => (kv.1, mp_const_obj.int kv.2)))
        = config_loop rm rs (kw_args.map (fun kv => (kv.1, mp_int_t kv.2))) := by
  induction kw_args with
  | nil => intro rs; rfl
  | cons kv rest ih =>
    intro rs
    obtain ⟨k, v⟩ := kv
    simp only [List.map_cons, config_loop_obj, config_loop, mp_obj_get_int_truncated]
    cases config_arg rm rs k (mp_int_t v) with
    | error e => rfl
    | ok rs' => exact ih rs'

theorem mod_radio_config_obj_int (rm : RadioMode) (s : State) (n_args : Nat)
    (kw_args : List (qstr × Int)) :
    mod_radio_config_obj rm s n_args (kw_args.map (fun kv => (kv.1, mp_const_obj.int kv.2)))
      = mod_radio_config rm s n_args (kw_args.map (fun kv => (kv.1, mp_int_t kv.2))) := by
  unfold mod_radio_config_obj mod_radio_config
  rw [config_loop_obj_int]

theorem mod_radio_config_obj_single (rm : RadioMode) (s : State) (n_args : Nat) (k : qstr)
    (v : Int) :
    mod_radio_config_obj rm s n_args [(k, .int v)]
      = mod_radio_config rm s n_args [(k, mp_int_t v)] :=
  mod_radio_config_obj_int rm s n_args [(k, v)]

/-- C3, as stated, fails: `config(length=2**32+5)` succeeds and commits
`max_payload = 5`, although 4294967301 is not in 1..251. -/
theorem wide_length_is_accepted :
    Succeeds (mod_radio_config_obj nrf51 (mod_radio_reset nrf51 State.boot).2 0
        [(.length, .int 4294967301)])
    ∧ (mod_radio_config_obj nrf51 (mod_radio_reset nrf51 State.boot).2 0
        [(.length, .int 4294967301)]).2.radio_state.max_payload = 5
    ∧ ¬ ((1 : Int) ≤ 4294967301 ∧ (4294967301 : Int) ≤ 251) := by
  refine ⟨?_, ?_, ?_⟩ <;> decide

/-- C3, amended: `mod_radio_config` called with one keyword option of a known
key and an integer value `v` succeeds exactly when `v` cut to the 32-bit
`mp_int_t` is in the key's range (length 1..251, queue 1..254, channel 0..100,
group 0..255, power 0..7, data_rate one of the three rate constants), always
succeeds for `address`, and on success the field of `radio_state` holds the
cut value (for power the table entry at that index, for address `v` as a
32-bit word).  The cut changes nothing for `v` in `-2^31 .. 2^31 - 1`.  The rate
constants are assumed to fit the `uint8_t` field. -/
theorem config_single_option (rm : RadioMode) (hfit : rm.fits) (s : State) (v : Int) :
    ((Succeeds (mod_radio_config_obj rm s 0 [(.length, .int v)])
          ↔ (1 ≤ mp_int_t v ∧ mp_int_t v ≤ 251))
      ∧ (Succeeds (mod_radio_config_obj rm s 0 [(.length, .int v)]) →
          ((mod_radio_config_obj rm s 0 [(.length, .int v)]).2.radio_state.max_payload : Int)
            = mp_int_t v))
    ∧ ((Succeeds (mod_radio_config_obj rm s 0 [(.queue, .int v)])
          ↔ (1 ≤ mp_int_t v ∧ mp_int_t v ≤ 254))
      ∧ (Succeeds (mod_radio_config_obj rm s 0 [(.queue, .int v)]) →
          ((mod_radio_config_obj rm s 0 [(.queue, .int v)]).2.radio_state.queue_len : Int)
            = mp_int_t v))
    ∧ ((Succeeds (mod_radio_config_obj rm s 0 [(.channel, .int v)])
          ↔ (0 ≤ mp_int_t v ∧ mp_int_t v ≤ 100))
      ∧ (Succeeds (mod_radio_config_obj rm s 0 [(.channel, .int v)]) →
          ((mod_radio_config_obj rm s 0 [(.channel, .int v)]).2.radio_state.channel : Int)
            = mp_int_t v))
    ∧ ((Succeeds (mod_radio_config_obj rm s 0 [(.group, .int v)])
          ↔ (0 ≤ mp_int_t v ∧ mp_int_t v ≤ 255))
      ∧ (Succeeds (mod_radio_config_obj rm s 0 [(.group, .int v)]) →
          ((mod_radio_config_obj rm s 0 [(.group, .int v)]).2.radio_state.prefix0 : Int)
            = mp_int_t v))
    ∧ ((Succeeds (mod_radio_config_obj rm s 0 [(.power, .int v)])
          ↔ (0 ≤ mp_int_t v ∧ mp_int_t v ≤ 7))
      ∧ (Succeeds (mod_radio_config_obj rm s 0 [(.power, .int v)]) →
          power_dbm_table[(mp_int_t v).toNat]?
            = some (mod_radio_config_obj rm s 0 [(.power, .int v)]).2.radio_state.power_dbm))
    ∧ ((Succeeds (mod_radio_config_obj rm s 0 [(.data_rate, .int v)]) ↔
          (mp_int_t v = rm.Nrf_250Kbit ∨ mp_int_t v = rm.Nrf_1Mbit
            ∨ mp_int_t v = rm.Nrf_2Mbit))
      ∧ (Succeeds (mod_radio_config_obj rm s 0 [(.data_rate, .int v)]) →
          ((mod_radio_config_obj rm s 0 [(.data_rate, .int v)]).2.radio_state.data_rate : Int)
            = mp_int_t v))
    ∧ (Succeeds (mod_radio_config_obj rm s 0 [(.address, .int v)])
      ∧ ((mod_radio_config_obj rm s 0 [(.address, .int v)]).2.radio_state.base0 : Int)
          = v % 4294967296)
    ∧ (-2147483648 ≤ v → v < 2147483648 → mp_int_t v = v) := by
  obtain ⟨h1, h2, h3, h4, h5, h6, h7, -, h8⟩ := config_single_value rm hfit s (mp_int_t v)
  simp only [mod_radio_config_obj_single]
  refine ⟨h1, h2, h3, h4, h5, h6, ⟨h7, ?_⟩, mp_int_t_of_range v⟩
  rw [h8]
  unfold mp_int_t
  omega

/-- C3 witness: with the nRF51 constants, `config(length=251)` succeeds on
the reset state and commits 251, and `config(length=2**32+251)` does the
same. -/
theorem config_single_option_witness :
    nrf51.fits
    ∧ (Succeeds (mod_radio_config_obj nrf51 (mod_radio_reset nrf51 State.boot).2 0
          [(.length, .int 251)]) ↔ (1 ≤ mp_int_t 251 ∧ mp_int_t 251 ≤ 251))
    ∧ ((mod_radio_config_obj nrf51 (mod_radio_reset nrf51 State.boot).2 0
          [(.length, .int 251)]).2.radio_state.max_payload : Int) = mp_int_t 251
    ∧ mp_int_t 251 = 251
    ∧ mp_int_t 4294967547 = 251 :=
  ⟨by decide,
   (config_single_option nrf51 (by decide) (mod_radio_reset nrf51 State.boot).2 251).1.1,
   (config_single_option nrf51 (by decide) (mod_radio_reset nrf51 State.boot).2 251).1.2
     (by decide),
   by decide, by decide⟩

/-- C17, as stated, fails: `config(power=2**32+3)` is not rejected; it
commits the table entry at index 3, although 4294967299 is outside 0..7. -/
theorem wide_power_index_is_accepted :
    Succeeds (mod_radio_config_obj nrf51 State.boot 0 [(.power, .int 4294967299)])
    ∧ (mod_radio_config_obj nrf51 State.boot 0
        [(.power, .int 4294967299)]).2.radio_state.power_dbm = -12
    ∧ ¬ ((0 : Int) ≤ 4294967299 ∧ (4294967299 : Int) ≤ 7) := by
  refine ⟨?_, ?_, ?_⟩ <;> decide

/-- C17, amended: `mod_radio_config(power=i)` with `i` in 0..7 succeeds and
commits the `i`-th entry of the table `[-30, -20, -16, -12, -8, -4, 0, 4]`.  The
index that is tested is the value cut to the 32-bit `mp_int_t`: a value whose
cut is outside 0..7 raises the out-of-range error for `power` before the
table is read and leaves the state untouched, and a value whose cut is in
0..7 commits the table entry at the cut index. -/
theorem config_power_index (rm : RadioMode) (s : State) (v : Int) :
    ((0 ≤ v ∧ v ≤ 7) →
      Succeeds (mod_radio_config_obj rm s 0 [(.power, .int v)])
      ∧ ([-30, -20, -16, -12, -8, -4, 0, 4] : List Int)[v.toNat]?
          = some (mod_radio_config_obj rm s 0 [(.power, .int v)]).2.radio_state.power_dbm)
    ∧ (¬ (0 ≤ mp_int_t v ∧ mp_int_t v ≤ 7) →
      mod_radio_config_obj rm s 0 [(.power, .int v)] = (.raise (.out_of_range .power), s))
    ∧ ((0 ≤ mp_int_t v ∧ mp_int_t v ≤ 7) →
      Succeeds (mod_radio_config_obj rm s 0 [(.power, .int v)])
      ∧ ([-30, -20, -16, -12, -8, -4, 0, 4] : List Int)[(mp_int_t v).toNat]?
          = some (mod_radio_config_obj rm s 0 [(.power, .int v)]).2.radio_state.power_dbm) := by
  obtain ⟨h1, h2⟩ := config_power_value rm s (mp_int_t v)
  simp only [mod_radio_config_obj_single]
  refine ⟨fun hv => ?_, h2, h1⟩
  have he : mp_int_t v = v := mp_int_t_of_range v (by omega) (by omega)
  rw [he] at h1
  rw [he]
  exact h1 hv

/-- C17 witness: index 7 gives 4 dBm, index 8 is rejected. -/
theorem config_power_index_witness :
    (Succeeds (mod_radio_config_obj nrf51 State.boot 0 [(.power, .int 7)])
      ∧ (mod_radio_config_obj nrf51 State.boot 0 [(.power, .int 7)]).2.radio_state.power_dbm = 4)
    ∧ mod_radio_config_obj nrf51 State.boot 0 [(.power, .int 8)]
        = (.raise (.out_of_range .power), State.boot) :=
  ⟨⟨((config_power_index nrf51 State.boot 7).1 (by decide)).1, by decide⟩,
   (config_power_index nrf51 State.boot 8).2.1 (by decide)⟩

theorem config_loop_obj_unknown (rm : RadioMode) (kw_args : List (qstr × mp_const_obj))
    (k : qstr) (o : mp_const_obj) :
    ∀ rs : radio_state_t,
      (∀ kv ∈ kw_args, kv.1.isKnown = true → ValidOption rm kv.1 kv.2) →
      firstUnknownOption kw_args = some (k, o) →
      config_loop_obj rm rs kw_args
        = match mp_obj_get_int_truncated o with
          | .ok _ => .error (.unknown_argument k)
          | .error e => .error e := by
  induction kw_args with
  | nil => intro rs _ h; simp [firstUnknownOption] at h
  | cons kv rest ih =>
    intro rs hvalid hfirst
    obtain ⟨k0, o0⟩ := kv
    simp only [firstUnknownOption] at hfirst
    by_cases hk0 : k0.isKnown = true
    · rw [if_pos hk0] at hfirst
      have hv := hvalid (k0, o0) (List.mem_cons_self _ _) hk0
      simp only [ValidOption] at hv
      cases hc : mp_obj_get_int_truncated o0 with
      | error e => simp only [hc] at hv
      | ok v0 =>
        simp only [hc] at hv
        obtain ⟨rs', hrs'⟩ := config_arg_of_valid rm rs k0 v0 hk0 hv
        simp only [config_loop_obj, hc, hrs']
        exact ih rs' (fun kv hkv => hvalid kv (List.mem_cons_of_mem _ hkv)) hfirst
    · rw [if_neg hk0] at hfirst
      injection hfirst with hfirst
      injection hfirst with h1 h2
      subst h1
      subst h2
      cases hc : mp_obj_get_int_truncated o0 with
      | error e => simp only [config_loop_obj, hc]
      | ok v0 =>
        simp only [config_loop_obj, hc,
          config_arg_of_unknown rm rs k0 v0 (by simpa using hk0)]

theorem firstUnknownOption_of_mem (kw_args : List (qstr × mp_const_obj)) (k0 : qstr)
    (o0 : mp_const_obj) (hmem : (k0, o0) ∈ kw_args) (hk0 : k0.isKnown = false) :
    ∃ k o, firstUnknownOption kw_args = some (k, o) ∧ k.isKnown = false
      ∧ (k, o) ∈ kw_args := by
  induction kw_args with
  | nil => cases hmem
  | cons kv rest ih =>
    obtain ⟨k1, o1⟩ := kv
    by_cases hk1 : k1.isKnown = true
    · rcases List.mem_cons.mp hmem with h | h
      · injection h with h1 h2
        subst h1
        rw [hk1] at hk0
        cases hk0
      · obtain ⟨k, o, h1, h2, h3⟩ := ih h
        exact ⟨k, o, by simp only [firstUnknownOption, hk1, if_true, h1], h2,
          List.mem_cons_of_mem _ h3⟩
    · have hk1' : k1.isKnown = false := by simpa using hk1
      exact ⟨k1, o1, by simp only [firstUnknownOption, hk1', Bool.false_eq_true, if_false],
        hk1', List.mem_cons_self _ _⟩

theorem radio_receive_state (s : State) (stack : Nat → Nat) (typed_packet : Bool)
    (hen : s.radio_buf ≠ none) :
    (radio_receive s stack typed_packet).2 = { s with sim := { s.sim with air := none } } := by
  obtain ⟨rs, rb, be, rx, hn, ⟨cfgs, air⟩⟩ := s
  unfold radio_receive
  cases rb with
  | none => exact absurd rfl hen
  | some blk =>
    simp only [simulator_radio_receive]
    cases air with
    | none => rfl
    | some pkt =>
      simp only [Option.map_some']
      split_ifs <;> rfl

theorem radio_receive_pending (s : State) (stack : Nat → Nat) (pkt : List Nat)
    (hen : s.radio_buf ≠ none) (hair : s.sim.air = some pkt) (hcap : pkt.length ≤ 2048) :
    radio_receive s stack false
      = (.ret (.bytes pkt), { s with sim := { s.sim with air := none } }) := by
  have h1 := radio_receive_air s stack false pkt hen hair hcap
  have h2 := radio_receive_state s stack false hen
  rw [← h2]
  exact Prod.ext h1 rfl

theorem deliver_frame (s : State) (p : List Nat) :
    ∃ sim', deliver s p = { s with sim := sim' } :=
  radio_send_frame s p []

theorem deliver_enabled (s : State) (p : List Nat) (hen : s.radio_buf ≠ none)
    (hlen : p.length ≤ 2048) :
    deliver s p = { s with sim := { s.sim with air := some p } } := by
  unfold deliver RADIO_IRQHandler
  rw [radio_send_enabled s p [] hen (by simpa using hlen)]
  simp

theorem deliverAll_frame (ps : List (List Nat)) :
    ∀ s : State, ∃ sim', deliverAll s ps = { s with sim := sim' } := by
  induction ps with
  | nil => intro s; exact ⟨s.sim, rfl⟩
  | cons p ps ih =>
    intro s
    obtain ⟨sim1, h1⟩ := deliver_frame s p
    obtain ⟨sim2, h2⟩ := ih (deliver s p)
    exact ⟨sim2, by rw [deliverAll, h2, h1]⟩

theorem deliverAll_append (ps : List (List Nat)) (p : List Nat) :
    ∀ s : State, deliverAll s (ps ++ [p]) = deliver (deliverAll s ps) p := by
  induction ps with
  | nil => intro s; rfl
  | cons q ps ih => intro s; exact ih (deliver s q)

theorem popN_empty (typed_packet : Bool) (residues : List (Nat → Nat)) (s : State)
    (hen : s.radio_buf ≠ none) (hair : s.sim.air = none) :
    popN typed_packet residues s = (List.replicate residues.length (.ret .none), s) := by
  induction residues with
  | nil => rfl
  | cons stack residues ih =>
    simp only [popN, radio_receive_no_packet s stack typed_packet hen hair, ih,
      List.length_cons, List.replicate_succ]

/-! ### Claim C21 -/

/-- C21, as stated, fails: after `radio.on()` and one looped-back packet
`01 02` the frontier `rx_buf` is at the start of the receive region, yet
`radio_receive(false)` returns the packet, not `None`. -/
theorem frontier_at_start_with_packet_pending :
    (deliver (radio_enable (mod_radio_reset nrf51 State.boot).2) [1, 2]).radio_buf.map
        (fun blk => blk.addr
          + (deliver (radio_enable (mod_radio_reset nrf51 State.boot).2) [1, 2]).radio_state.max_payload
          + 1)
      = some (deliver (radio_enable (mod_radio_reset nrf51 State.boot).2) [1, 2]).rx_buf
    ∧ (radio_receive (deliver (radio_enable (mod_radio_reset nrf51 State.boot).2) [1, 2])
        (fun _ => 0) false).1 = .ret (.bytes [1, 2])
    ∧ (radio_receive (deliver (radio_enable (mod_radio_reset nrf51 State.boot).2) [1, 2])
        (fun _ => 0) false).1 ≠ .ret .none := by
  refine ⟨?_, ?_, ?_⟩ <;> decide

/-- C21, amended: idempotent empty pop.  On an enabled radio for which the
simulator holds no packet, `radio_receive` with either typed flag returns
`None` and returns the state it was given, frontier and buffer included, so
any number of repeated pops all return `None`. -/
theorem empty_pop_idempotent (s : State) (hen : s.radio_buf ≠ none) (hair : s.sim.air = none) :
    (∀ stack typed_packet, radio_receive s stack typed_packet = (.ret .none, s))
    ∧ (∀ typed_packet residues,
        popN typed_packet residues s = (List.replicate residues.length (.ret .none), s)) :=
  ⟨fun stack t => radio_receive_no_packet s stack t hen hair,
   fun t residues => popN_empty t residues s hen hair⟩

/-- C21 witness: the enabled default radio right after `radio_enable`; three
typed pops all return `None`. -/
theorem empty_pop_idempotent_witness :
    (popN true [fun _ => 0, fun _ => 1, fun _ => 2]
        (radio_enable (mod_radio_reset nrf51 State.boot).2)).1
      = [.ret .none, .ret .none, .ret .none]
    ∧ (radio_receive (radio_enable (mod_radio_reset nrf51 State.boot).2) (fun _ => 0) false).2
      = radio_enable (mod_radio_reset nrf51 State.boot).2 := by
  obtain ⟨h1, h2⟩ := empty_pop_idempotent (radio_enable (mod_radio_reset nrf51 State.boot).2)
    (by decide) (by decide)
  exact ⟨by rw [h2 true]; rfl, by rw [h1 (fun _ => 0) false]⟩

/-! ### Claim C16 -/

theorem exec_frame (s : State) (e : QEvent) : ∃ sim', e.exec s = { s with sim := sim' } := by
  cases e with
  | packet payload => exact deliver_frame s payload
  | irq => exact ⟨s.sim, rfl⟩
  | receive stack typed_packet => exact radio_receive_frame s stack typed_packet

theorem runQ_frame (es : List QEvent) :
    ∀ s : State, ∃ sim', runQ s es = { s with sim := sim' } := by
  induction es with
  | nil => intro s; exact ⟨s.sim, rfl⟩
  | cons e es ih =>
    intro s
    obtain ⟨sim1, h1⟩ := exec_frame s e
    obtain ⟨sim2, h2⟩ := ih (e.exec s)
    exact ⟨sim2, by rw [runQ, h2, h1]⟩

theorem region_fits (M Q : Nat) (hQ : 1 ≤ Q) : (M + 1) + M + 1 ≤ (M + 1) * (Q + 1) := by
  have h : (M + 1) * 2 ≤ (M + 1) * (Q + 1) := Nat.mul_le_mul_left _ (by omega)
  omega

/-- C16: frontier bound.  In every state reached from `radio_enable` (with
`queue_len ≥ 1`, as every committed configuration has) by any interleaving of
packet deliveries, radio interrupts and `radio_receive` calls, the radio is
enabled and the frontier `rx_buf` is where `radio_enable` put it: at the start
of the receive region, with `rx_buf + max_payload + 1 ≤ buf_end`. -/
theorem frontier_bound (s : State) (es : List QEvent) (hQ : 1 ≤ s.radio_state.queue_len) :
    ∃ blk, (runQ (radio_enable s) es).radio_buf = some blk
      ∧ blk.addr + (runQ (radio_enable s) es).radio_state.max_payload + 1
          ≤ (runQ (radio_enable s) es).rx_buf
      ∧ (runQ (radio_enable s) es).rx_buf + (runQ (radio_enable s) es).radio_state.max_payload + 1
          ≤ (runQ (radio_enable s) es).buf_end
      ∧ (runQ (radio_enable s) es).rx_buf = (radio_enable s).rx_buf := by
  obtain ⟨blk, hb, -, he, hrx⟩ := radio_enable_buffer s
  obtain ⟨sim', hrun⟩ := runQ_frame es (radio_enable s)
  have hfit := region_fits s.radio_state.max_payload s.radio_state.queue_len hQ
  refine ⟨blk, ?_, ?_, ?_, ?_⟩
  · rw [hrun]; exact hb
  · rw [hrun]
    show blk.addr + (radio_enable s).radio_state.max_payload + 1 ≤ (radio_enable s).rx_buf
    rw [radio_enable_radio_state, hrx]
    omega
  · rw [hrun]
    show (radio_enable s).rx_buf + (radio_enable s).radio_state.max_payload + 1
      ≤ (radio_enable s).buf_end
    rw [radio_enable_radio_state, hrx, he]
    omega
  · rw [hrun]

/-- C16 witness: default configuration; an oversized packet, an interrupt,
two packets, a typed pop that raises and an untyped pop. -/
theorem frontier_bound_witness :
    (runQ (radio_enable (mod_radio_reset nrf51 State.boot).2)
        [.packet (List.replicate 40 7), .irq, .packet [1, 2, 3], .packet [4],
         .receive (fun _ => 0) true, .receive (fun _ => 0) false]).rx_buf
      = (radio_enable (mod_radio_reset nrf51 State.boot).2).rx_buf
    ∧ (runQ (radio_enable (mod_radio_reset nrf51 State.boot).2)
        [.packet (List.replicate 40 7), .irq, .packet [1, 2, 3], .packet [4],
         .receive (fun _ => 0) true, .receive (fun _ => 0) false]).rx_buf + 32 + 1
      ≤ (runQ (radio_enable (mod_radio_reset nrf51 State.boot).2)
        [.packet (List.replicate 40 7), .irq, .packet [1, 2, 3], .packet [4],
         .receive (fun _ => 0) true, .receive (fun _ => 0) false]).buf_end := by
  obtain ⟨blk, -, -, h2, h3⟩ := frontier_bound (mod_radio_reset nrf51 State.boot).2
    [.packet (List.replicate 40 7), .irq, .packet [1, 2, 3], .packet [4],
     .receive (fun _ => 0) true, .receive (fun _ => 0) false] (by decide)
  exact ⟨h3, h2⟩

/-! ### Claims C7 and C8 -/

theorem deliver_pop (s : State) (stack : Nat → Nat) (p : List Nat) (hen : s.radio_buf ≠ none)
    (hlen : p.length ≤ 2048) :
    radio_receive (deliver s p) stack false
      = (.ret (.bytes p), { s with sim := { s.sim with air := none } }) := by
  rw [deliver_enabled s p hen hlen]
  exact radio_receive_pending _ stack p hen rfl hlen

theorem deliverPopAll_results (stack : Nat → Nat) (ps : List (List Nat)) :
    ∀ s : State, s.radio_buf ≠ none → (∀ p ∈ ps, p.length ≤ 2048) →
      (deliverPopAll stack ps s).1 = ps.map (fun p => .ret (.bytes p))
      ∧ (ps ≠ [] →
          (deliverPopAll stack ps s).2 = { s with sim := { s.sim with air := none } }) := by
  induction ps with
  | nil => intro s _ _; exact ⟨rfl, fun h => absurd rfl h⟩
  | cons p ps ih =>
    intro s hen hlen
    have hp := deliver_pop s stack p hen (hlen p (List.mem_cons_self _ _))
    obtain ⟨h1, h2⟩ := ih { s with sim := { s.sim with air := none } } hen
      (fun q hq => hlen q (List.mem_cons_of_mem _ hq))
    simp only [deliverPopAll, hp, List.map_cons, h1]
    refine ⟨trivial, fun _ => ?_⟩
    by_cases hps : ps = []
    · subst hps; rfl
    · rw [h2 hps]

/-- Which packets fail the test of line 294: every packet whose first three
bytes are not the tag `01 00 01`, except the two bytes `01 00` when the byte
behind them in `buf` is 1. -/
theorem string_test_fails (stack : Nat → Nat) (pkt : List Nat) (hdec : pkt.take 3 ≠ [1, 0, 1])
    (hres : pkt = [1, 0] → stack 2 ≠ 1) : ¬ decodes_as_string stack pkt := by
  unfold decodes_as_string
  match pkt, hdec, hres with
  | [], _, _ => simp
  | [a], _, _ => simp
  | [a, b], _, hres =>
    intro h
    simp only [List.length_cons, List.length_nil, List.getD_cons_zero, List.getD_cons_succ] at h
    norm_num at h
    obtain ⟨ha, hb, hc⟩ := h
    subst ha
    subst hb
    exact hres rfl hc
  | a :: b :: c :: rest, hdec, _ =>
    intro h
    simp only [List.length_cons, List.getD_cons_zero, List.getD_cons_succ] at h
    norm_num at h
    obtain ⟨ha, hb, hc⟩ := h
    subst ha
    subst hb
    subst hc
    simp at hdec

end Radio

/-! # Theorems about the audio frames -/

namespace Audio

/-! ## Claim C24: saturating frame addition -/

theorem add_into_sample_clamp (s o : Nat) (add : Bool) (hs : s ≤ 255) (ho : o ≤ 255) :
    ((add_into_sample s o add : Nat) : Int)
      = clamp ((s : Int) + (if add then 1 else -1) * ((o : Int) - 128)) 0 255 := by
  unfold add_into_sample clamp toUnsigned
  simp only [Nat.shiftRight_eq_div_pow]
  cases add <;> simp only [if_true, if_false, Bool.false_eq_true] <;> split_ifs <;> omega


theorem foldl_set_getD (f : Nat → Nat → Nat) (k : Nat) :
    ∀ (data : List Nat) (j : Nat), k ≤ data.length →
      ((List.range k).foldl (fun d i => d.set i (f i (d.getD i 0))) data).getD j 0
        = (if j < k then f j (data.getD j 0) else data.getD j 0)
      ∧ ((List.range k).foldl (fun d i => d.set i (f i (d.getD i 0))) data).length
        = data.length := by
  induction k with
  | zero => intro data j _; simp
  | succ k ih =>
    intro data j hk
    have hk' : k ≤ data.length := by omega
    rw [List.range_succ, List.foldl_append]
    simp only [List.foldl_cons, List.foldl_nil, List.length_set]
    refine ⟨?_, (ih data j hk').2⟩
    have hlen := (ih data k hk').2
    have hk1 := (ih data k hk').1
    have hj1 := (ih data j hk').1
    simp only [List.getD_eq_getElem?_getD] at hk1 hj1 hlen ⊢
    by_cases hjk : j = k
    · subst hjk
      rw [List.getElem?_set_self (by omega)]
      simp only [Option.getD_some, hk1, Nat.lt_irrefl, if_false, Nat.lt_succ_self, if_true]
    · rw [List.getElem?_set_ne (by omega), hj1]
      by_cases hlt : j < k
      · simp only [hlt, if_true, Nat.lt_succ_of_lt hlt]
      · have : ¬ j < k + 1 := by omega
        simp only [hlt, this, if_false]

theorem add_into_getD (N : Nat) (self other : List Nat) (add : Bool) (hsl : N ≤ self.length)
    (j : Nat) :
    (add_into N self other add).getD j 0
        = (if j < N then add_into_sample (self.getD j 0) (other.getD j 0) add
          else self.getD j 0)
    ∧ (add_into N self other add).length = self.length :=
  foldl_set_getD (fun i x => add_into_sample x (other.getD i 0) add) N self j hsl

theorem getD_le_of_forall (l : List Nat) (i : Nat) (h : ∀ x ∈ l, x ≤ 255) : l.getD i 0 ≤ 255 := by
  by_cases hi : i < l.length
  · rw [List.getD_eq_getElem l 0 hi]
    exact h _ (List.getElem_mem hi)
  · rw [List.getD_eq_default l 0 (by omega)]
    omega

/-- C24: saturating frame addition.  For frames of `AUDIO_CHUNK_SIZE` samples
in 0..255, `add_into(self, other, add)` sets every `self[i]` to
`clamp(self[i] + (other[i] - 128), 0, 255)` when `add` is true and to
`clamp(self[i] - (other[i] - 128), 0, 255)` when it is false; every sample
stays in 0..255, and against a freshly created frame (all samples 128) `self`
is unchanged. -/
theorem add_into_saturates (AUDIO_CHUNK_SIZE : Nat) (self other : List Nat) (add : Bool)
    (hsl : self.length = AUDIO_CHUNK_SIZE) (hol : other.length = AUDIO_CHUNK_SIZE)
    (hs : ∀ x ∈ self, x ≤ 255) (ho : ∀ x ∈ other, x ≤ 255) :
    (∀ i, i < AUDIO_CHUNK_SIZE →
      (((add_into AUDIO_CHUNK_SIZE self other add).getD i 0 : Nat) : Int)
        = if add then clamp ((self.getD i 0 : Int) + ((other.getD i 0 : Int) - 128)) 0 255
          else clamp ((self.getD i 0 : Int) - ((other.getD i 0 : Int) - 128)) 0 255)
    ∧ (add_into AUDIO_CHUNK_SIZE self other add).length = AUDIO_CHUNK_SIZE
    ∧ (∀ x ∈ add_into AUDIO_CHUNK_SIZE self other add, x ≤ 255)
    ∧ add_into AUDIO_CHUNK_SIZE self (new_microbit_audio_frame AUDIO_CHUNK_SIZE) add = self := by
  have hsample : ∀ (o : List Nat), (∀ x ∈ o, x ≤ 255) → ∀ i, i < AUDIO_CHUNK_SIZE →
      (((add_into AUDIO_CHUNK_SIZE self o add).getD i 0 : Nat) : Int)
        = clamp ((self.getD i 0 : Int) + (if add then 1 else -1) * ((o.getD i 0 : Int) - 128))
            0 255 := by
    intro o ho' i hi
    rw [(add_into_getD AUDIO_CHUNK_SIZE self o add (by omega) i).1, if_pos hi]
    exact add_into_sample_clamp _ _ add (getD_le_of_forall self i hs) (getD_le_of_forall o i ho')
  have hlen : ∀ o, (add_into AUDIO_CHUNK_SIZE self o add).length = AUDIO_CHUNK_SIZE := by
    intro o
    rw [(add_into_getD AUDIO_CHUNK_SIZE self o add (by omega) 0).2, hsl]
  refine ⟨?_, hlen other, ?_, ?_⟩
  · intro i hi
    have : i < other.length := hol ▸ hi
    rw [hsample other ho i hi]
    cases add <;> simp only [if_true, if_false, Bool.false_eq_true] <;> congr 1 <;> ring
  · intro x hx
    obtain ⟨i, hi, rfl⟩ := List.mem_iff_getElem.mp hx
    have h := hsample other ho i (by rw [← hlen other]; exact hi)
    rw [List.getD_eq_getElem _ 0 hi] at h
    unfold clamp at h
    omega
  · have hfresh : ∀ x ∈ new_microbit_audio_frame AUDIO_CHUNK_SIZE, x ≤ 255 := by
      intro x hx
      rw [new_microbit_audio_frame, List.mem_replicate] at hx
      omega
    apply List.ext_getElem
    · rw [hlen, hsl]
    · intro i h1 h2
      have hi : i < AUDIO_CHUNK_SIZE := by rw [← hsl]; exact h2
      have h := hsample _ hfresh i hi
      have h128 : (new_microbit_audio_frame AUDIO_CHUNK_SIZE).getD i 0 = 128 := by
        rw [new_microbit_audio_frame, List.getD_eq_getElem _ 0 (by simpa using hi)]
        simp
      have hsi := hs _ (List.getElem_mem h2)
      rw [List.getD_eq_getElem _ 0 h1, List.getD_eq_getElem _ 0 h2, h128] at h
      unfold clamp at h
      cases add <;> simp only [if_true, if_false, Bool.false_eq_true] at h <;> omega

/-- C24 witness: four-sample frames; the sum saturates at both ends. -/
theorem add_into_saturates_witness :
    add_into 4 [0, 100, 200, 255] [0, 128, 255, 1] true = [0, 100, 255, 128]
    ∧ add_into 4 [0, 100, 200, 255] [0, 128, 255, 1] false = [128, 100, 73, 255]
    ∧ add_into 4 [0, 100, 200, 255] (new_microbit_audio_frame 4) false = [0, 100, 200, 255] :=
  ⟨by decide, by decide,
   (add_into_saturates 4 [0, 100, 200, 255] [0, 128, 255, 1] false rfl rfl (by decide)
      (by decide)).2.2.2⟩

/-! ## Claim C25: `float_to_fixed` -/

theorem float_exponent_eq (bits : Nat) :
    float_exponent bits = (ieee_exponent bits : Int) - 150 := by
  unfold float_exponent ieee_exponent
  rw [Nat.shiftRight_eq_div_pow]
  have h : bits / 2 ^ 23 &&& 255 = bits / 2 ^ 23 % 2 ^ 8 :=
    Nat.and_pow_two_sub_one_eq_mod _ 8
  rw [h]

theorem float_mantissa_eq (bits : Nat) :
    float_mantissa bits = 2 ^ 23 + ieee_fraction bits := by
  unfold float_mantissa ieee_fraction
  rw [Nat.one_shiftLeft, Nat.and_pow_two_sub_one_eq_mod]
  have h := Nat.mul_add_lt_is_or (Nat.mod_lt bits (Nat.two_pow_pos 23)) 1
  simp only [Nat.mul_one] at h
  exact h.symm

theorem float_sign_eq (bits : Nat) (hb : bits < 2 ^ 32) : float_sign bits = ieee_sign bits := by
  unfold float_sign ieee_sign
  rw [Nat.shiftRight_eq_div_pow]
  have hq : bits / 2 ^ 30 < 4 := by omega
  have h31 : bits / 2 ^ 31 = bits / 2 ^ 30 / 2 := by omega
  rw [h31]
  generalize bits / 2 ^ 30 = q at hq
  interval_cases q <;> decide

theorem floor_scaled (m : Nat) (e : Int) :
    ⌊(m : ℚ) * 2 ^ e * 2 ^ 15⌋
      = if 0 ≤ e + 15 then ((m * 2 ^ (e + 15).toNat : Nat) : Int)
        else ((m / 2 ^ (-(e + 15)).toNat : Nat) : Int) := by
  have h2 : (2 : ℚ) ≠ 0 := by norm_num
  have hmul : (m : ℚ) * 2 ^ e * 2 ^ 15 = (m : ℚ) * 2 ^ (e + 15) := by
    rw [zpow_add₀ h2, mul_assoc]
    norm_num
  rw [hmul]
  by_cases hk : 0 ≤ e + 15
  · rw [if_pos hk]
    obtain ⟨n, hn⟩ := Int.eq_ofNat_of_zero_le hk
    rw [hn, zpow_natCast, Int.toNat_ofNat]
    have : (m : ℚ) * 2 ^ n = ((m * 2 ^ n : Nat) : ℚ) := by push_cast; ring
    rw [this, Int.floor_natCast]
  · rw [if_neg hk]
    obtain ⟨n, hn⟩ := Int.eq_ofNat_of_zero_le (show 0 ≤ -(e + 15) by omega)
    have he : e + 15 = -(n : Int) := by omega
    rw [hn, he, zpow_neg, zpow_natCast, Int.toNat_ofNat]
    have : (m : ℚ) * (2 ^ n)⁻¹ = (m : ℚ) / ((2 ^ n : Nat) : ℚ) := by push_cast; ring
    rw [this, Rat.floor_natCast_div_natCast]
    norm_cast

theorem toInt32_of_range (v : Int) (h1 : -2147483648 ≤ v) (h2 : v < 2147483648) :
    toInt32 v = v := by
  unfold toInt32; omega

theorem ieee_abs_small_exponent (bits : Nat) (hsmall : ieee_abs bits < 2 ^ 16) :
    ieee_exponent bits ≤ 142 := by
  by_contra hE
  have hE' : 143 ≤ ieee_exponent bits := by omega
  unfold ieee_abs at hsmall
  rw [if_neg (by omega)] at hsmall
  have hp : (2 : ℚ) ^ (-7 : Int) ≤ 2 ^ ((ieee_exponent bits : Int) - 150) :=
    zpow_le_zpow_right₀ (by norm_num) (by omega)
  have hm : (2 : ℚ) ^ 23 ≤ ((2 ^ 23 + ieee_fraction bits : Nat) : ℚ) := by
    push_cast
    have : (0 : ℚ) ≤ (ieee_fraction bits : ℚ) := Nat.cast_nonneg _
    linarith
  have hpos : (0 : ℚ) < 2 ^ (-7 : Int) := by positivity
  have : (2 : ℚ) ^ 23 * 2 ^ (-7 : Int)
      ≤ ((2 ^ 23 + ieee_fraction bits : Nat) : ℚ) * 2 ^ ((ieee_exponent bits : Int) - 150) :=
    mul_le_mul hm hp hpos.le (by positivity)
  have h16 : (2 : ℚ) ^ 23 * 2 ^ (-7 : Int) = 2 ^ 16 := by norm_num
  rw [h16] at this
  linarith

theorem ieee_floor (bits : Nat) (hE : ieee_exponent bits ≤ 142) :
    ⌊ieee_abs bits * 2 ^ 15⌋
      = if ieee_exponent bits < 104 then 0
        else if 135 ≤ ieee_exponent bits then
          (((2 ^ 23 + ieee_fraction bits) * 2 ^ (ieee_exponent bits - 135) : Nat) : Int)
        else (((2 ^ 23 + ieee_fraction bits) / 2 ^ (135 - ieee_exponent bits) : Nat) : Int) := by
  have hF : ieee_fraction bits < 2 ^ 23 := Nat.mod_lt _ (by norm_num)
  unfold ieee_abs
  by_cases h0 : ieee_exponent bits = 0
  · rw [if_pos h0, floor_scaled, if_neg (by omega), if_pos (by omega)]
    have ht : (-(-149 + 15 : Int)).toNat = 134 := by decide
    rw [ht, Nat.div_eq_of_lt]
    · rfl
    · calc ieee_fraction bits < 2 ^ 23 := hF
        _ ≤ 2 ^ 134 := Nat.pow_le_pow_right (by norm_num) (by norm_num)
  · rw [if_neg h0, floor_scaled]
    by_cases h135 : 135 ≤ ieee_exponent bits
    · have ht : ((ieee_exponent bits : Int) - 150 + 15).toNat = ieee_exponent bits - 135 := by
        omega
      rw [if_pos (by omega), if_neg (by omega), if_pos h135, ht]
    · have ht : (-((ieee_exponent bits : Int) - 150 + 15)).toNat = 135 - ieee_exponent bits := by
        omega
      rw [if_neg (by omega), ht]
      by_cases h104 : ieee_exponent bits < 104
      · rw [if_pos h104, Nat.div_eq_of_lt]
        · rfl
        · calc 2 ^ 23 + ieee_fraction bits < 2 ^ 32 := by omega
            _ ≤ 2 ^ (135 - ieee_exponent bits) :=
              Nat.pow_le_pow_right (by norm_num) (by omega)
      · rw [if_neg h104, if_neg h135]

/-- C25: `float_to_fixed` on the 32-bit IEEE-754 pattern.  For every pattern
of a finite value `f` (zero, denormal or normal) with `|f| < 2^16`,
`float_to_fixed(f, 15)` is `sign(f) * floor(|f| * 2^15)` in exact rational
arithmetic, and when the code shifts left the shifted mantissa stays below
`2^31`.  In particular the result is 32768 for 1.0 (`0x3F800000`) and 0 for
+0.0 and -0.0 (`0x00000000`, `0x80000000`). -/
theorem float_to_fixed_exact (bits : Nat) (hb : bits < 2 ^ 32)
    (hfin : ieee_exponent bits ≠ 255) (hsmall : ieee_abs bits < 2 ^ 16) :
    float_to_fixed bits 15 = ieee_sign bits * ⌊ieee_abs bits * 2 ^ 15⌋
    ∧ (0 < float_shift bits 15 →
        float_mantissa bits <<< (float_shift bits 15).toNat < 2 ^ 31)
    ∧ float_to_fixed 0x3F800000 15 = 32768
    ∧ float_to_fixed 0x00000000 15 = 0
    ∧ float_to_fixed 0x80000000 15 = 0 := by
  have hE := ieee_abs_small_exponent bits hsmall
  have hE255 : ieee_exponent bits < 255 :=
    lt_of_le_of_ne (by unfold ieee_exponent; omega) hfin
  have hF : ieee_fraction bits < 2 ^ 23 := Nat.mod_lt _ (by norm_num)
  have hsign := float_sign_eq bits hb
  have hman := float_mantissa_eq bits
  have hshift : float_shift bits 15 = (ieee_exponent bits : Int) - 135 := by
    unfold float_shift
    rw [float_exponent_eq]
    unfold toInt32
    omega
  have hs1 : ieee_sign bits = 1 ∨ ieee_sign bits = -1 := by
    unfold ieee_sign; split <;> simp
  have hleft : ∀ k, k ≤ 7 → (2 ^ 23 + ieee_fraction bits) * 2 ^ k < 2 ^ 31 := by
    intro k hk
    calc (2 ^ 23 + ieee_fraction bits) * 2 ^ k
        ≤ (2 ^ 23 + ieee_fraction bits) * 2 ^ 7 :=
          Nat.mul_le_mul_left _ (Nat.pow_le_pow_right (by norm_num) hk)
      _ < 2 ^ 31 := by omega
  refine ⟨?_, ?_, by decide, by decide, by decide⟩
  · rw [ieee_floor bits hE]
    unfold float_to_fixed
    simp only [hshift, hsign, hman]
    by_cases hpos : (ieee_exponent bits : Int) - 135 > 0
    · have ht : ((ieee_exponent bits : Int) - 135).toNat = ieee_exponent bits - 135 := by omega
      have hlt := hleft (ieee_exponent bits - 135) (by omega)
      rw [if_pos hpos, if_neg (by omega), if_pos (by omega), ht, Nat.shiftLeft_eq]
      generalize (2 ^ 23 + ieee_fraction bits) * 2 ^ (ieee_exponent bits - 135) = v at hlt
      rw [toInt32_of_range (v : Int) (by omega) (by omega)]
      rcases hs1 with h | h <;> rw [h] <;> apply toInt32_of_range <;> omega
    · rw [if_neg hpos]
      by_cases hlow : (ieee_exponent bits : Int) - 135 < -31
      · rw [if_pos hlow, if_pos (by omega)]
        simp
      · have ht : (-((ieee_exponent bits : Int) - 135)).toNat = 135 - ieee_exponent bits := by
          omega
        rw [if_neg hlow, if_neg (by omega), ht, Nat.shiftRight_eq_div_pow]
        have hv : (2 ^ 23 + ieee_fraction bits) / 2 ^ (135 - ieee_exponent bits) < 2 ^ 24 :=
          Nat.lt_of_le_of_lt (Nat.div_le_self _ _) (by omega)
        by_cases h135 : 135 ≤ ieee_exponent bits
        · have he : ieee_exponent bits = 135 := by omega
          rw [if_pos h135, he]
          simp only [Nat.sub_self, Nat.pow_zero, Nat.div_one, Nat.mul_one]
          rcases hs1 with h | h <;> rw [h] <;> apply toInt32_of_range <;> omega
        · rw [if_neg h135]
          generalize (2 ^ 23 + ieee_fraction bits) / 2 ^ (135 - ieee_exponent bits) = v at hv
          rcases hs1 with h | h <;> rw [h] <;> apply toInt32_of_range <;> omega
  · intro hpos
    rw [hshift] at hpos ⊢
    have ht : ((ieee_exponent bits : Int) - 135).toNat = ieee_exponent bits - 135 := by omega
    rw [hman, ht, Nat.shiftLeft_eq]
    exact hleft _ (by omega)

/-- C25 witness: -1.5 (`0xBFC00000`) is finite and below `2^16`, and
`float_to_fixed(-1.5, 15)` is `-floor(1.5 * 2^15) = -49152`. -/
theorem float_to_fixed_exact_witness :
    ieee_abs 0xBFC00000 < 2 ^ 16
    ∧ float_to_fixed 0xBFC00000 15 = ieee_sign 0xBFC00000 * ⌊ieee_abs 0xBFC00000 * 2 ^ 15⌋
    ∧ float_to_fixed 0xBFC00000 15 = -49152 :=
  ⟨by norm_num [ieee_abs, ieee_exponent, ieee_fraction],
   (float_to_fixed_exact 0xBFC00000 (by norm_num) (by decide)
      (by norm_num [ieee_abs, ieee_exponent, ieee_fraction])).1,
   by decide⟩

end Audio
